import Mathlib

/-!
# A browser chat client: streaming-response assembly and session state

A shallow embedding of the client's four scripts (`config.js`, `ui.js`,
`chat.js`, `app.js`).  JavaScript strings are sequences of UTF-16 code units,
values are the JSON-shaped fragment of JavaScript values, and the mutable
globals (`AppState`, `UI.elements`, `localStorage`, the network) are the fields
of one explicit `World` that every operation transforms.  An operation that can
throw returns an `Outcome`: the world reached and the error thrown, if any.

What the environment supplies is an explicit argument: the clock readings, the
replies of the server, the answer to a confirmation dialog, and the platform
functions of `Platform`.  An asynchronous function is run to completion on the
replies it is given.  Console output, scrolling, focus and styling are left out;
one clock reading serves all the bubbles drawn by one loop.
-/

set_option autoImplicit false

/-! ## JavaScript strings and values -/

/-- A JavaScript string: its UTF-16 code units, in order. -/
abbrev JSString := List Nat

/-- The JavaScript string denoted by a literal: each character as one code unit, or as a
surrogate pair above the basic plane. -/
def utf16 (s : String) : JSString :=
  s.toList.flatMap fun c =>
    if c.toNat < 65536 then [c.toNat]
    else [55296 + (c.toNat - 65536) / 1024, 56320 + (c.toNat - 65536) % 1024]

/-- The code units that `String.prototype.trim` removes: ECMAScript WhiteSpace and
LineTerminator. -/
def isTrimmable (c : Nat) : Bool :=
  c == 9 || c == 10 || c == 11 || c == 12 || c == 13 || c == 32 || c == 160 ||
  c == 5760 || (8192 ≤ c && c ≤ 8202) || c == 8232 || c == 8233 || c == 8239 ||
  c == 8287 || c == 12288 || c == 65279

/-- The method `String.prototype.trim`. -/
def jsTrim (s : JSString) : JSString :=
  ((s.dropWhile isTrimmable).reverse.dropWhile isTrimmable).reverse

/-- The method `String.prototype.startsWith` with a literal search string. -/
def jsStartsWith (pre s : JSString) : Bool :=
  pre.isPrefixOf s

/-- The call `s.replace(/\n/g, '<br>')`. -/
def replaceNewlines (s : JSString) : JSString :=
  s.flatMap fun c => if c = 10 then utf16 "<br>" else [c]

/-- The call `s.split('\n')`: the pieces between line feeds; never empty. -/
def splitNewline : JSString → List JSString
  | [] => [[]]
  | c :: cs =>
    if c = 10 then [] :: splitNewline cs
    else
      match splitNewline cs with
      | [] => [[c]]
      | piece :: pieces => (c :: piece) :: pieces

/-- The JSON-shaped JavaScript values.  A number is the bit pattern of its IEEE-754 double;
the program never does arithmetic on one. -/
inductive JSValue where
  | undefined
  | null
  | bool (b : Bool)
  | num (bits : Nat)
  | str (s : JSString)
  | arr (items : List JSValue)
  | obj (fields : List (JSString × JSValue))

/-- An error object: its `name` and its `message`. -/
structure JSError where
  name : JSString
  message : JSString

/-- The object built by `new Error(message)`. -/
def JSError.ofMessage (message : JSString) : JSError :=
  ⟨utf16 "Error", message⟩

/-- A `TypeError` raised by the engine.  Its message text is engine-specific and no
property below depends on it. -/
def JSError.typeError (detail : String) : JSError :=
  ⟨utf16 "TypeError", utf16 detail⟩

/-- Whether a double is `+0`, `-0` or `NaN`, the falsy numbers. -/
def isFalsyNumber (bits : Nat) : Bool :=
  bits % 2 ^ 63 == 0 || ((bits / 2 ^ 52) % 2048 == 2047 && bits % 2 ^ 52 != 0)

/-- JavaScript truthiness (`ToBoolean`). -/
def JSValue.truthy : JSValue → Bool
  | .undefined => false
  | .null => false
  | .bool b => b
  | .num bits => !isFalsyNumber bits
  | .str s => !s.isEmpty
  | .arr _ => true
  | .obj _ => true

/-- The test `Array.isArray`. -/
def JSValue.isArray : JSValue → Bool
  | .arr _ => true
  | _ => false

/-- Whether a double is `NaN`. -/
def isNaNBits (bits : Nat) : Bool :=
  (bits / 2 ^ 52) % 2048 == 2047 && bits % 2 ^ 52 != 0

/-- Strict equality `a === b` where `a` is a value freshly produced by the platform: two
objects or arrays are then never the same reference. -/
def JSValue.strictEq : JSValue → JSValue → Bool
  | .undefined, .undefined => true
  | .null, .null => true
  | .bool a, .bool b => a == b
  | .num a, .num b => !isNaNBits a && !isNaNBits b && (a == b || (a % 2 ^ 63 == 0 && b % 2 ^ 63 == 0))
  | .str a, .str b => a == b
  | _, _ => false

/-- Own-property lookup in the field list of an object. -/
def lookupField (key : JSString) : List (JSString × JSValue) → JSValue
  | [] => .undefined
  | (k, v) :: rest => if k = key then v else lookupField key rest

/-- Property read `v.key` for the keys the program reads (`type`, `content`, `time`,
`messages`, `conversationId`, `response`, `conversation_id`), none of which is inherited
from a built-in prototype: a `TypeError` on `undefined` and `null`, the own property of an
object, `undefined` otherwise. -/
def JSValue.getProp (v : JSValue) (key : JSString) : Except JSError JSValue :=
  match v with
  | .undefined => .error (JSError.typeError "Cannot read properties of undefined")
  | .null => .error (JSError.typeError "Cannot read properties of null")
  | .obj fields => .ok (lookupField key fields)
  | _ => .ok .undefined

/-- The platform functions the scripts call and that are not part of the repository:
`JSON.stringify`, `JSON.parse`, `parseFloat`, and the conversion of a number to a string. -/
structure Platform where
  stringify : JSValue → JSString
  parse : JSString → Except JSError JSValue
  parseFloat : JSString → Nat
  numberToString : Nat → JSString

mutual
/-- The abstract operation `ToString` on a JSON-shaped value.  An object with an own
`toString` property (never callable in a JSON-shaped value) has no primitive value and
raises a `TypeError`; an array is joined as `Array.prototype.toString` does. -/
def JSValue.toJSString (P : Platform) : JSValue → Except JSError JSString
  | .undefined => .ok (utf16 "undefined")
  | .null => .ok (utf16 "null")
  | .bool b => .ok (if b then utf16 "true" else utf16 "false")
  | .num bits => .ok (P.numberToString bits)
  | .str s => .ok s
  | .arr items =>
    match itemTexts P items with
    | .error e => .error e
    | .ok texts => .ok (List.intercalate (utf16 ",") texts)
  | .obj fields =>
    if fields.any (fun f => f.1 == utf16 "toString") then
      .error (JSError.typeError "Cannot convert object to primitive value")
    else .ok (utf16 "[object Object]")
/-- The texts the elements of an array contribute to `join`: nothing for `undefined` and
`null`, `ToString` of the element otherwise. -/
def itemTexts (P : Platform) : List JSValue → Except JSError (List JSString)
  | [] => .ok []
  | x :: rest =>
    match x with
    | .undefined =>
      match itemTexts P rest with
      | .error e => .error e
      | .ok texts => .ok ([] :: texts)
    | .null =>
      match itemTexts P rest with
      | .error e => .error e
      | .ok texts => .ok ([] :: texts)
    | _ =>
      match JSValue.toJSString P x with
      | .error e => .error e
      | .ok s =>
        match itemTexts P rest with
        | .error e => .error e
        | .ok texts => .ok (s :: texts)
end

/-! ## The state: `config.js`, the page, the storage and the network -/

namespace CONFIG

/-- The constant `CONFIG.DEFAULT_SERVER_URL`. -/
def DEFAULT_SERVER_URL : JSString := utf16 "http://localhost:8000"

/-- The constant `CONFIG.DEFAULT_USE_STREAMING`. -/
def DEFAULT_USE_STREAMING : Bool := true

namespace STORAGE_KEYS
/-- The storage key of the server URL. -/
def SERVER_URL : JSString := utf16 "aiChatServerUrl"
/-- The storage key of the conversation id. -/
def CONVERSATION_ID : JSString := utf16 "aiChatConversationId"
/-- The storage key of the temperature. -/
def TEMPERATURE : JSString := utf16 "aiChatTemperature"
/-- The storage key of the streaming flag. -/
def USE_STREAMING : JSString := utf16 "aiChatUseStreaming"
/-- The storage key of the chat history. -/
def CHAT_HISTORY : JSString := utf16 "aiChatHistory"
end STORAGE_KEYS

namespace ENDPOINTS
/-- The health endpoint. -/
def HEALTH : JSString := utf16 "/health"
/-- The regular chat endpoint. -/
def CHAT : JSString := utf16 "/chat/"
/-- The streaming chat endpoint. -/
def CHAT_STREAM : JSString := utf16 "/chat/stream"
end ENDPOINTS

namespace MESSAGES
/-- The welcome message. -/
def WELCOME : JSString := utf16 "¡Hola! Soy tu asistente de IA. ¿En qué puedo ayudarte hoy?"
/-- The message shown when the server is not connected. -/
def DISCONNECTED : JSString := utf16 "No hay conexión con el servidor. Verifica la configuración."
/-- The text put before every error shown. -/
def ERROR_PREFIX : JSString := utf16 "Error: "
end MESSAGES

end CONFIG

/-- The accumulator `AppState.currentStreamingMessage`: the identity of its page element,
the content received so far, and the display time. -/
structure StreamingMessage where
  element : Nat
  content : JSString
  time : JSString

/-- The global `AppState` of `config.js`.  `conversationId` and `messages` are JavaScript
values because the scripts assign parsed JSON to them unchecked; `temperature` is a double. -/
structure AppState where
  serverUrl : JSString
  conversationId : JSValue
  temperature : Nat
  useStreaming : Bool
  isConnected : Bool
  messages : JSValue
  currentStreamingMessage : Option StreamingMessage
  isTyping : Bool

/-- A child of the `chatMessages` element: a message bubble (its identity, the type in its
class name, the markup of its text, its time, whether it carries the `streaming-message`
class) or an error banner. -/
inductive DomNode where
  | message (id : Nat) (type : JSString) (html : JSString) (time : JSString) (streaming : Bool)
  | error (text : JSString)

/-- The properties of `UI.elements` the scripts read or write.  The `value` of a form field
is kept as the string last assigned or typed: the page markup, and so the type of each
field, is not among the sources. -/
structure Elements where
  chatMessages : List DomNode
  messageInput : JSString
  messageInputDisabled : Bool
  sendButtonDisabled : Bool
  typingIndicatorShown : Bool
  serverStatus : JSString
  statusDotOnline : Bool
  serverUrl : JSString
  conversationId : JSString
  temperature : JSString
  useStreaming : Bool

/-- The `localStorage` area: keys with their stored strings. -/
abbrev LocalStorage := List (JSString × JSString)

/-- The method `localStorage.getItem`: `none` is `null`. -/
def LocalStorage.getItem (st : LocalStorage) (key : JSString) : Option JSString :=
  match st with
  | [] => none
  | (k, v) :: rest => if k = key then some v else LocalStorage.getItem rest key

/-- The method `localStorage.setItem`. -/
def LocalStorage.setItem (st : LocalStorage) (key value : JSString) : LocalStorage :=
  match st with
  | [] => [(key, value)]
  | (k, v) :: rest => if k = key then (k, value) :: rest else (k, v) :: LocalStorage.setItem rest key value

/-- The method `localStorage.removeItem`. -/
def LocalStorage.removeItem (st : LocalStorage) (key : JSString) : LocalStorage :=
  st.filter fun kv => !(kv.1 == key)

/-- A request issued with `fetch`: the URL and, for a `POST`, the JSON body. -/
structure Request where
  url : JSString
  body : Option JSString

/-- Everything the scripts can read or change: `AppState`, the page, `localStorage`, the
requests issued so far (oldest first) and the identity the next created element gets. -/
structure World where
  app : AppState
  ui : Elements
  storage : LocalStorage
  requests : List Request
  nextNode : Nat

/-- The result of running an operation: the world it leaves and the error it threw. -/
structure Outcome where
  world : World
  thrown : Option JSError

/-- Normal completion. -/
def Outcome.ok (w : World) : Outcome := ⟨w, none⟩

/-- Abrupt completion with a thrown error. -/
def Outcome.throw (w : World) (e : JSError) : Outcome := ⟨w, some e⟩

/-- Sequencing: the next statement runs only after normal completion. -/
def Outcome.andThen (o : Outcome) (next : World → Outcome) : Outcome :=
  match o.thrown with
  | none => next o.world
  | some _ => o

/-- One reading of the clock: the text of `new Date().toLocaleTimeString(...)` and the
double returned by `Date.now()`. -/
structure Clock where
  time : JSString
  now : Nat

/-- The constant `CONFIG.DEFAULT_TEMPERATURE`: the double `0.7`. -/
def CONFIG.DEFAULT_TEMPERATURE : Nat := 4604480259023595110

/-! ## `ui.js` -/

namespace UI

/-- Replaces the page elements of a world. -/
def setChatMessages (nodes : List DomNode) (w : World) : World :=
  { w with ui := { w.ui with chatMessages := nodes } }

/-- The function `UI.showError`: appends an error banner with the prefixed message. -/
def showError (message : JSString) (w : World) : World :=
  setChatMessages (w.ui.chatMessages ++ [DomNode.error (CONFIG.MESSAGES.ERROR_PREFIX ++ message)]) w

/-- The function `UI.saveChatHistory`: stores the serialised `AppState.messages`. -/
def saveChatHistory (P : Platform) (w : World) : World :=
  { w with storage := w.storage.setItem CONFIG.STORAGE_KEYS.CHAT_HISTORY (P.stringify w.app.messages) }

/-- The function `UI.updateServerStatus`. -/
def updateServerStatus (connected : Bool) (w : World) : World :=
  { w with
    app := { w.app with isConnected := connected }
    ui := { w.ui with
      serverStatus := if connected then utf16 "Conectado" else utf16 "Desconectado"
      statusDotOnline := connected } }

/-- The function `UI.addMessage(type, content, time, saveToHistory)`.  The class name and the
markup are built first (a `TypeError` when `type` or `time` has no string form or `content`
has no `replace` method, before anything changes); the bubble is appended; with
`saveToHistory` the record is pushed on `AppState.messages` (a `TypeError` when that is not
an array) and the history is saved. -/
def addMessage (P : Platform) (clock : Clock) (type content time : JSValue)
    (saveToHistory : Bool) (w : World) : Outcome :=
  match type.toJSString P with
  | .error e => Outcome.throw w e
  | .ok typeText =>
    let time := if time.truthy then time else JSValue.str clock.time
    match content with
    | .str text =>
      match time.toJSString P with
      | .error e => Outcome.throw w e
      | .ok timeText =>
        let w1 : World :=
          { w with
            ui := { w.ui with chatMessages :=
              w.ui.chatMessages ++ [DomNode.message w.nextNode typeText (replaceNewlines text) timeText false] }
            nextNode := w.nextNode + 1 }
        if saveToHistory then
          match w1.app.messages with
          | .arr items =>
            let record := JSValue.obj
              [(utf16 "type", type), (utf16 "content", content), (utf16 "time", time),
               (utf16 "timestamp", JSValue.num clock.now)]
            Outcome.ok (saveChatHistory P { w1 with app := { w1.app with messages := JSValue.arr (items ++ [record]) } })
          | _ => Outcome.throw w1 (JSError.typeError "AppState.messages.push is not a function")
        else Outcome.ok w1
    | _ => Outcome.throw w (JSError.typeError "content.replace is not a function")

/-- The loop `messages.forEach(msg => this.addMessage(msg.type, msg.content, msg.time, false))`
over the items of an array. -/
def forEachAddMessage (P : Platform) (clock : Clock) : List JSValue → World → Outcome
  | [], w => Outcome.ok w
  | msg :: rest, w =>
    match msg.getProp (utf16 "type"), msg.getProp (utf16 "content"), msg.getProp (utf16 "time") with
    | .ok type, .ok content, .ok time =>
      (addMessage P clock type content time false w).andThen (forEachAddMessage P clock rest)
    | .error e, _, _ => Outcome.throw w e
    | _, .error e, _ => Outcome.throw w e
    | _, _, .error e => Outcome.throw w e

/-- The function `UI.loadSettings`: each stored setting that passes its test is copied to its
form field and to `AppState`. -/
def loadSettings (P : Platform) (w : World) : World :=
  let savedServerUrl := w.storage.getItem CONFIG.STORAGE_KEYS.SERVER_URL
  let savedConversationId := w.storage.getItem CONFIG.STORAGE_KEYS.CONVERSATION_ID
  let savedTemperature := w.storage.getItem CONFIG.STORAGE_KEYS.TEMPERATURE
  let savedUseStreaming := w.storage.getItem CONFIG.STORAGE_KEYS.USE_STREAMING
  let w1 : World :=
    match savedServerUrl with
    | some (c :: cs) =>
      { w with ui := { w.ui with serverUrl := c :: cs }, app := { w.app with serverUrl := c :: cs } }
    | _ => w
  let w2 : World :=
    match savedConversationId with
    | some (c :: cs) =>
      { w1 with ui := { w1.ui with conversationId := c :: cs }
                app := { w1.app with conversationId := JSValue.str (c :: cs) } }
    | _ => w1
  let w3 : World :=
    match savedTemperature with
    | some (c :: cs) =>
      { w2 with ui := { w2.ui with temperature := c :: cs }
                app := { w2.app with temperature := P.parseFloat (c :: cs) } }
    | _ => w2
  match savedUseStreaming with
  | some s =>
    { w3 with ui := { w3.ui with useStreaming := s == utf16 "true" }
              app := { w3.app with useStreaming := s == utf16 "true" } }
  | none => w3

/-- The function `UI.loadChatHistory`.  A stored, non-empty text is parsed; the parsed value
is assigned to `AppState.messages` at once, the page is rebuilt from it, and whatever is
thrown from the parse onwards is caught and logged. -/
def loadChatHistory (P : Platform) (clock : Clock) (w : World) : World :=
  match w.storage.getItem CONFIG.STORAGE_KEYS.CHAT_HISTORY with
  | some (c :: cs) =>
    match P.parse (c :: cs) with
    | .error _ => w
    | .ok messages =>
      let w1 : World := { w with app := { w.app with messages := messages } }
      let w2 := setChatMessages [] w1
      let welcomed :=
        addMessage P clock (JSValue.str (utf16 "ai")) (JSValue.str CONFIG.MESSAGES.WELCOME)
          (JSValue.str (utf16 "Ahora")) false w2
      (welcomed.andThen fun w3 =>
        match messages with
        | .arr items => forEachAddMessage P clock items w3
        | _ => Outcome.throw w3 (JSError.typeError "messages.forEach is not a function")).world
  | _ => w

/-- The function `UI.createStreamingMessage`: appends an empty streaming bubble and makes a
fresh accumulator the current streaming message. -/
def createStreamingMessage (clock : Clock) (w : World) : World :=
  { w with
    ui := { w.ui with chatMessages :=
      w.ui.chatMessages ++ [DomNode.message w.nextNode (utf16 "ai") [] clock.time true] }
    app := { w.app with currentStreamingMessage := some ⟨w.nextNode, [], clock.time⟩ }
    nextNode := w.nextNode + 1 }

/-- Sets the markup of the bubble with the given identity. -/
def setNodeHtml (id : Nat) (html : JSString) : List DomNode → List DomNode
  | [] => []
  | DomNode.message i type old time streaming :: rest =>
    (if i = id then DomNode.message i type html time streaming
     else DomNode.message i type old time streaming) :: setNodeHtml id html rest
  | node :: rest => node :: setNodeHtml id html rest

/-- Drops the `streaming-message` class of the bubble with the given identity. -/
def clearStreamingClass (id : Nat) : List DomNode → List DomNode
  | [] => []
  | DomNode.message i type html time streaming :: rest =>
    DomNode.message i type html time (if i = id then false else streaming) :: clearStreamingClass id rest
  | node :: rest => node :: clearStreamingClass id rest

/-- The call `element.remove()` for the bubble with the given identity. -/
def removeNode (id : Nat) : List DomNode → List DomNode
  | [] => []
  | DomNode.message i type html time streaming :: rest =>
    if i = id then removeNode id rest else DomNode.message i type html time streaming :: removeNode id rest
  | node :: rest => node :: removeNode id rest

/-- The function `UI.updateStreamingMessage`: with a live accumulator, the chunk is appended
to its content and the bubble is redrawn. -/
def updateStreamingMessage (chunk : JSString) (w : World) : World :=
  match w.app.currentStreamingMessage with
  | some acc =>
    let content := acc.content ++ chunk
    let nodes := setNodeHtml acc.element (replaceNewlines content) w.ui.chatMessages
    { w with
      app := { w.app with currentStreamingMessage := some { acc with content := content } }
      ui := { w.ui with chatMessages := nodes } }
  | none => w

/-- The function `UI.finishStreamingMessage`: with a live accumulator, its content is pushed
on `AppState.messages` as one `ai` record (a `TypeError` when that is not an array), the
history is saved and the accumulator is cleared. -/
def finishStreamingMessage (P : Platform) (clock : Clock) (w : World) : Outcome :=
  match w.app.currentStreamingMessage with
  | some acc =>
    let w1 := setChatMessages (clearStreamingClass acc.element w.ui.chatMessages) w
    match w1.app.messages with
    | .arr items =>
      let record := JSValue.obj
        [(utf16 "type", JSValue.str (utf16 "ai")), (utf16 "content", JSValue.str acc.content),
         (utf16 "time", JSValue.str acc.time), (utf16 "timestamp", JSValue.num clock.now)]
      let w2 := saveChatHistory P { w1 with app := { w1.app with messages := JSValue.arr (items ++ [record]) } }
      Outcome.ok { w2 with app := { w2.app with currentStreamingMessage := none } }
    | _ => Outcome.throw w1 (JSError.typeError "AppState.messages.push is not a function")
  | none => Outcome.ok w

/-- The function `UI.showTypingIndicator`. -/
def showTypingIndicator (w : World) : World :=
  { w with ui := { w.ui with typingIndicatorShown := true }, app := { w.app with isTyping := true } }

/-- The function `UI.hideTypingIndicator`. -/
def hideTypingIndicator (w : World) : World :=
  { w with ui := { w.ui with typingIndicatorShown := false }, app := { w.app with isTyping := false } }

/-- The function `UI.clearChat`: the page is reset to the welcome bubble, the history and the
conversation id are emptied, the empty history is saved and the stored id is removed. -/
def clearChat (P : Platform) (clock : Clock) (w : World) : Outcome :=
  (addMessage P clock (JSValue.str (utf16 "ai")) (JSValue.str CONFIG.MESSAGES.WELCOME)
      (JSValue.str (utf16 "Ahora")) false (setChatMessages [] w)).andThen fun w1 =>
    let w2 : World :=
      { w1 with
        app := { w1.app with messages := JSValue.arr [], conversationId := JSValue.str [] }
        ui := { w1.ui with conversationId := [] } }
    let w3 := saveChatHistory P w2
    Outcome.ok { w3 with storage := w3.storage.removeItem CONFIG.STORAGE_KEYS.CONVERSATION_ID }

/-- The function `UI.setInputDisabled`. -/
def setInputDisabled (disabled : Bool) (w : World) : World :=
  { w with ui := { w.ui with messageInputDisabled := disabled, sendButtonDisabled := disabled } }

end UI

/-! ## The platform's streaming `TextDecoder` (UTF-8) -/

/-- The state of the UTF-8 decoder of the Encoding Standard. -/
structure Utf8Decoder where
  codePoint : Nat
  bytesSeen : Nat
  bytesNeeded : Nat
  lower : Nat
  upper : Nat

/-- The decoder between characters. -/
def Utf8Decoder.fresh : Utf8Decoder := ⟨0, 0, 0, 128, 191⟩

/-- The decoder's handler on a byte when no character is in progress; it returns the new
state and the scalar values emitted (`65533` stands for a decoding error). -/
def Utf8Decoder.start (byte : Nat) : Utf8Decoder × List Nat :=
  if byte ≤ 127 then (Utf8Decoder.fresh, [byte])
  else if 194 ≤ byte ∧ byte ≤ 223 then (⟨byte % 32, 0, 1, 128, 191⟩, [])
  else if 224 ≤ byte ∧ byte ≤ 239 then
    (⟨byte % 16, 0, 2, if byte = 224 then 160 else 128, if byte = 237 then 159 else 191⟩, [])
  else if 240 ≤ byte ∧ byte ≤ 244 then
    (⟨byte % 8, 0, 3, if byte = 240 then 144 else 128, if byte = 244 then 143 else 191⟩, [])
  else (Utf8Decoder.fresh, [65533])

/-- The decoder's handler on one byte.  A byte outside the expected range ends the character
in progress with an error and is then handled again from the fresh state. -/
def Utf8Decoder.handle (d : Utf8Decoder) (byte : Nat) : Utf8Decoder × List Nat :=
  if d.bytesNeeded = 0 then Utf8Decoder.start byte
  else if byte < d.lower ∨ d.upper < byte then
    ((Utf8Decoder.start byte).1, 65533 :: (Utf8Decoder.start byte).2)
  else
    let codePoint := d.codePoint * 64 + byte % 64
    if d.bytesSeen + 1 = d.bytesNeeded then (Utf8Decoder.fresh, [codePoint])
    else (⟨codePoint, d.bytesSeen + 1, d.bytesNeeded, 128, 191⟩, [])

/-- The UTF-16 code units of a scalar value. -/
def codeUnits (scalar : Nat) : JSString :=
  if scalar < 65536 then [scalar]
  else [55296 + (scalar - 65536) / 1024, 56320 + (scalar - 65536) % 1024]

/-- A `TextDecoder` used with `stream: true`: the UTF-8 decoder and the flag that the first
scalar value has been seen (a byte order mark in first position is dropped). -/
structure TextDecoder where
  utf8 : Utf8Decoder
  bomSeen : Bool

/-- The object built by `new TextDecoder()`. -/
def TextDecoder.fresh : TextDecoder := ⟨Utf8Decoder.fresh, false⟩

/-- Serialises emitted scalar values to a string, dropping a leading byte order mark. -/
def TextDecoder.serialize (bomSeen : Bool) : List Nat → Bool × JSString
  | [] => (bomSeen, [])
  | scalar :: rest =>
    if !bomSeen && scalar == 65279 then TextDecoder.serialize true rest
    else ((TextDecoder.serialize true rest).1, codeUnits scalar ++ (TextDecoder.serialize true rest).2)

/-- The effect of one byte on the decoder: the new state and the text produced. -/
def TextDecoder.step (d : TextDecoder) (byte : Nat) : TextDecoder × JSString :=
  let handled := d.utf8.handle byte
  let out := TextDecoder.serialize d.bomSeen handled.2
  (⟨handled.1, out.1⟩, out.2)

/-- The call `decoder.decode(value, { stream: true })`: the bytes of the chunk are handled in
order, bytes of an unfinished character stay in the decoder state. -/
def TextDecoder.decode (d : TextDecoder) : List Nat → TextDecoder × JSString
  | [] => (d, [])
  | byte :: rest =>
    (((d.step byte).1.decode rest).1, (d.step byte).2 ++ ((d.step byte).1.decode rest).2)

/-! ## `chat.js` -/

/-- What `fetch` on the streaming endpoint produces: a rejection, or a response with its
status and the chunks (byte sequences) its body reader delivers before `done`. -/
inductive StreamReply where
  | failed (e : JSError)
  | response (ok : Bool) (status : Nat) (statusText : JSString) (chunks : List (List Nat))

/-- What `fetch` on the regular endpoint produces: a rejection, or a response with its status
and the result of `response.json()`. -/
inductive ChatReply where
  | failed (e : JSError)
  | response (ok : Bool) (status : Nat) (statusText : JSString) (json : Except JSError JSValue)

namespace Chat

/-- Records a request in the network log. -/
def logRequest (url : JSString) (body : Option JSString) (w : World) : World :=
  { w with requests := w.requests ++ [⟨url, body⟩] }

/-- The function `Chat.checkServerStatus`; `reply` is `response.ok`, or `none` when `fetch`
rejects. -/
def checkServerStatus (reply : Option Bool) (w : World) : World :=
  let w1 := logRequest (w.app.serverUrl ++ CONFIG.ENDPOINTS.HEALTH) none w
  match reply with
  | some ok => UI.updateServerStatus ok w1
  | none => UI.updateServerStatus false w1

/-- The object `requestBody` of both send functions. -/
def requestBody (message : JSString) (w : World) : JSValue :=
  JSValue.obj
    ([(utf16 "message", JSValue.str message), (utf16 "temperature", JSValue.num w.app.temperature),
      (utf16 "use_context", JSValue.bool true)] ++
     (if w.app.conversationId.truthy then [(utf16 "conversation_id", w.app.conversationId)] else []))

/-- The text of `new Error(...)` for a response that is not ok. -/
def statusError (status : Nat) (statusText : JSString) : JSError :=
  JSError.ofMessage (utf16 "Error " ++ utf16 (toString status) ++ utf16 ": " ++ statusText)

/-- The loop `for (const line of lines)` of `sendStreamingMessage`: a line that starts with
`data: ` has its first six code units sliced off; a payload that starts with `[ERROR]`
throws an error whose message is `data.substring(8)`; a payload that is not blank is handed
to `UI.updateStreamingMessage`. -/
def processLines : List JSString → World → Outcome
  | [], w => Outcome.ok w
  | line :: rest, w =>
    if jsStartsWith (utf16 "data: ") line then
      let data := line.drop 6
      if jsStartsWith (utf16 "[ERROR]") data then
        Outcome.throw w (JSError.ofMessage (data.drop 8))
      else if !(jsTrim data).isEmpty then processLines rest (UI.updateStreamingMessage data w)
      else processLines rest w
    else processLines rest w

/-- The loop `while (true)` of `sendStreamingMessage` over the chunks the reader delivers:
the decoded chunk is appended to the buffer, the buffer is split on line feeds, the last
piece is kept as the new buffer and the other pieces are processed as lines. -/
def readLoop : List (List Nat) → TextDecoder → JSString → World → Outcome
  | [], _, _, w => Outcome.ok w
  | value :: rest, decoder, buffer, w =>
    let decoded := decoder.decode value
    let lines := splitNewline (buffer ++ decoded.2)
    (processLines lines.dropLast w).andThen (readLoop rest decoded.1 (lines.getLastD []))

/-- The function `Chat.sendStreamingMessage`. -/
def sendStreamingMessage (P : Platform) (startClock endClock : Clock) (reply : StreamReply)
    (message : JSString) (w : World) : Outcome :=
  let w1 := logRequest (w.app.serverUrl ++ CONFIG.ENDPOINTS.CHAT_STREAM)
    (some (P.stringify (requestBody message w))) w
  let attempt : Outcome :=
    match reply with
    | .failed e => Outcome.throw w1 e
    | .response ok status statusText chunks =>
      if !ok then Outcome.throw w1 (statusError status statusText)
      else
        (readLoop chunks TextDecoder.fresh [] (UI.createStreamingMessage startClock w1)).andThen
          (UI.finishStreamingMessage P endClock)
  match attempt.thrown with
  | none => attempt
  | some e =>
    match attempt.world.app.currentStreamingMessage with
    | some acc =>
      let w2 := UI.setChatMessages (UI.removeNode acc.element attempt.world.ui.chatMessages) attempt.world
      Outcome.throw { w2 with app := { w2.app with currentStreamingMessage := none } } e
    | none => Outcome.throw attempt.world e

/-- The function `Chat.sendRegularMessage`. -/
def sendRegularMessage (P : Platform) (clock : Clock) (reply : ChatReply)
    (message : JSString) (w : World) : Outcome :=
  let w1 := UI.showTypingIndicator w
  let w2 := logRequest (w1.app.serverUrl ++ CONFIG.ENDPOINTS.CHAT)
    (some (P.stringify (requestBody message w1))) w1
  let attempt : Outcome :=
    match reply with
    | .failed e => Outcome.throw w2 e
    | .response ok status statusText json =>
      if !ok then Outcome.throw w2 (statusError status statusText)
      else
        match json with
        | .error e => Outcome.throw w2 e
        | .ok data =>
          let w3 := UI.hideTypingIndicator w2
          match data.getProp (utf16 "response") with
          | .error e => Outcome.throw w3 e
          | .ok response =>
            (UI.addMessage P clock (JSValue.str (utf16 "ai")) response JSValue.null true w3).andThen fun w4 =>
              match data.getProp (utf16 "conversation_id") with
              | .error e => Outcome.throw w4 e
              | .ok newId =>
                if newId.truthy && !(newId.strictEq w4.app.conversationId) then
                  let w5 : World := { w4 with app := { w4.app with conversationId := newId } }
                  match newId.toJSString P with
                  | .error e => Outcome.throw w5 e
                  | .ok text =>
                    Outcome.ok
                      { w5 with
                        ui := { w5.ui with conversationId := text }
                        storage := w5.storage.setItem CONFIG.STORAGE_KEYS.CONVERSATION_ID text }
                else Outcome.ok w4
  match attempt.thrown with
  | none => attempt
  | some e => Outcome.throw (UI.hideTypingIndicator attempt.world) e

/-- The function `Chat.sendMessage`.  The text of the input is trimmed; an empty text returns
at once; without a connection the disconnected error is shown and nothing else happens;
otherwise the user message is added and the reply is fetched, an error thrown by the fetch
being shown, and the input is enabled again. -/
def sendMessage (P : Platform) (userClock startClock endClock : Clock) (stream : StreamReply)
    (chat : ChatReply) (w : World) : Outcome :=
  let message := jsTrim w.ui.messageInput
  if message.isEmpty then Outcome.ok w
  else if !w.app.isConnected then Outcome.ok (UI.showError CONFIG.MESSAGES.DISCONNECTED w)
  else
    let w1 : World := { w with ui := { w.ui with messageInput := [] } }
    let w2 := UI.setInputDisabled true w1
    (UI.addMessage P userClock (JSValue.str (utf16 "user")) (JSValue.str message) JSValue.null true w2).andThen
      fun w3 =>
        let attempt :=
          if w3.app.useStreaming then sendStreamingMessage P startClock endClock stream message w3
          else sendRegularMessage P endClock chat message w3
        let w4 :=
          match attempt.thrown with
          | some e => UI.showError e.message attempt.world
          | none => attempt.world
        Outcome.ok (UI.setInputDisabled false w4)

end Chat

/-- The function `UI.saveSettings`: the four form fields are stored and copied to `AppState`;
when the server URL changed, the server status is checked again (`health` is the reply). -/
def UI.saveSettings (P : Platform) (health : Option Bool) (w : World) : World :=
  let newServerUrl := w.ui.serverUrl
  let newConversationId := w.ui.conversationId
  let newTemperature := w.ui.temperature
  let newUseStreaming := w.ui.useStreaming
  let storage := (((w.storage.setItem CONFIG.STORAGE_KEYS.SERVER_URL newServerUrl).setItem
    CONFIG.STORAGE_KEYS.CONVERSATION_ID newConversationId).setItem
    CONFIG.STORAGE_KEYS.TEMPERATURE newTemperature).setItem
    CONFIG.STORAGE_KEYS.USE_STREAMING (if newUseStreaming then utf16 "true" else utf16 "false")
  let serverUrlChanged := w.app.serverUrl != newServerUrl
  let w1 : World :=
    { w with
      storage := storage
      app := { w.app with
        serverUrl := newServerUrl
        conversationId := JSValue.str newConversationId
        temperature := P.parseFloat newTemperature
        useStreaming := newUseStreaming } }
  if serverUrlChanged then Chat.checkServerStatus health w1 else w1

/-! ## `app.js` -/

namespace ChatApp

/-- The function `ChatApp.clearChat`; `confirmed` is the answer to the confirmation dialog. -/
def clearChat (P : Platform) (clock : Clock) (confirmed : Bool) (w : World) : Outcome :=
  if confirmed then
    (UI.clearChat P clock w).andThen fun w1 =>
      Outcome.ok { w1 with app := { w1.app with conversationId := JSValue.str [] } }
  else Outcome.ok w

/-- The handler `reader.onload` of `ChatApp.importHistory` on the text of the file.  The test
`data.messages && Array.isArray(data.messages)` holds exactly when `data.messages` is an
array.  Whatever is thrown inside is caught and reported with `UI.showError`. -/
def importHistory (P : Platform) (clock : Clock) (fileText : JSString) (w : World) : World :=
  let attempt : Outcome :=
    match P.parse fileText with
    | .error e => Outcome.throw w e
    | .ok data =>
      match data.getProp (utf16 "messages") with
      | .error e => Outcome.throw w e
      | .ok messages =>
        match messages with
        | .arr items =>
          (UI.clearChat P clock w).andThen fun w1 =>
            (UI.forEachAddMessage P clock items w1).andThen fun w2 =>
              let w3 : World := { w2 with app := { w2.app with messages := messages } }
              match data.getProp (utf16 "conversationId") with
              | .error e => Outcome.throw w3 e
              | .ok newId =>
                if newId.truthy then
                  let w4 : World := { w3 with app := { w3.app with conversationId := newId } }
                  match newId.toJSString P with
                  | .error e => Outcome.throw w4 e
                  | .ok text =>
                    Outcome.ok (UI.saveChatHistory P { w4 with ui := { w4.ui with conversationId := text } })
                else Outcome.ok (UI.saveChatHistory P w3)
        | _ => Outcome.throw w (JSError.ofMessage (utf16 "Formato de archivo inválido"))
  match attempt.thrown with
  | none => attempt.world
  | some _ =>
    UI.showError (utf16 "Error al importar el historial. Verifica el formato del archivo.") attempt.world

end ChatApp

/-! ## Startup and persistence as a whole -/

/-- The initial values of the four settings fields of the page.  The page markup is not among
the sources, so they are a parameter. -/
structure FormDefaults where
  serverUrl : JSString
  conversationId : JSString
  temperature : JSString
  useStreaming : Bool

/-- The state of a freshly loaded page: `AppState` as `config.js` initialises it, the settings
fields at their defaults, an empty message area, and the given storage. -/
def freshWorld (form : FormDefaults) (storage : LocalStorage) : World :=
  { app :=
      { serverUrl := CONFIG.DEFAULT_SERVER_URL
        conversationId := JSValue.str []
        temperature := CONFIG.DEFAULT_TEMPERATURE
        useStreaming := CONFIG.DEFAULT_USE_STREAMING
        isConnected := false
        messages := JSValue.arr []
        currentStreamingMessage := none
        isTyping := false }
    ui :=
      { chatMessages := []
        messageInput := []
        messageInputDisabled := false
        sendButtonDisabled := false
        typingIndicatorShown := false
        serverStatus := []
        statusDotOnline := false
        serverUrl := form.serverUrl
        conversationId := form.conversationId
        temperature := form.temperature
        useStreaming := form.useStreaming }
    storage := storage
    requests := []
    nextNode := 0 }

/-- Saving a state: `UI.saveSettings` followed by `UI.saveChatHistory`. -/
def saveState (P : Platform) (health : Option Bool) (w : World) : World :=
  UI.saveChatHistory P (UI.saveSettings P health w)

/-- Loading a storage into a fresh page, in the order of `ChatApp.init`: `UI.loadChatHistory`
(from `UI.init`), then `UI.loadSettings`. -/
def loadState (P : Platform) (clock : Clock) (form : FormDefaults) (storage : LocalStorage) : World :=
  UI.loadSettings P (UI.loadChatHistory P clock (freshWorld form storage))

/-- The five storage keys of `CONFIG.STORAGE_KEYS`. -/
def storageKeys : List JSString :=
  [CONFIG.STORAGE_KEYS.SERVER_URL, CONFIG.STORAGE_KEYS.CONVERSATION_ID, CONFIG.STORAGE_KEYS.TEMPERATURE,
   CONFIG.STORAGE_KEYS.USE_STREAMING, CONFIG.STORAGE_KEYS.CHAT_HISTORY]

/-! ## The stream protocol in the words of the specification -/

/-- The text of a response body: the bytes of all its chunks, decoded in order by one fresh
decoder. -/
def responseText (chunks : List (List Nat)) : JSString :=
  (TextDecoder.fresh.decode chunks.flatten).2

/-- The complete lines of a text: the pieces that a line feed terminates. -/
def completeLines (text : JSString) : List JSString :=
  (splitNewline text).dropLast

/-- The payload of an event line: the text after the six code units of `data: `. -/
def payload (line : JSString) : JSString :=
  line.drop 6

/-- An event line whose payload begins with the error marker. -/
def isErrorLine (line : JSString) : Bool :=
  jsStartsWith (utf16 "data: ") line && jsStartsWith (utf16 "[ERROR]") (payload line)

/-- An event line whose payload is not empty after trimming. -/
def isContentLine (line : JSString) : Bool :=
  jsStartsWith (utf16 "data: ") line && !(jsTrim (payload line)).isEmpty

/-- The reference stream assembler: the payloads of the content lines among the complete
lines of the text, concatenated in order. -/
def assembledContent (text : JSString) : JSString :=
  (((completeLines text).filter isContentLine).map payload).flatten

/-- The history record of an assistant message. -/
def aiRecord (content time : JSString) (now : Nat) : JSValue :=
  JSValue.obj
    [(utf16 "type", JSValue.str (utf16 "ai")), (utf16 "content", JSValue.str content),
     (utf16 "time", JSValue.str time), (utf16 "timestamp", JSValue.num now)]

/-- A message as the import and the stored history expect it: an object whose `type` and
`content` are strings and whose `time` is a string or absent. -/
def isWellFormedMessage : JSValue → Bool
  | .obj fields =>
    (match lookupField (utf16 "type") fields with
      | .str _ => true
      | _ => false) &&
    (match lookupField (utf16 "content") fields with
      | .str _ => true
      | _ => false) &&
    (match lookupField (utf16 "time") fields with
      | .str _ => true
      | .undefined => true
      | _ => false)
  | _ => false

/-! ## Sample inputs -/

/-- The text of the sample import file of the specification. -/
def sampleImportText : JSString :=
  utf16 "\x7b\"messages\":[\x7b\"type\":\"user\",\"content\":\"hi\"\x7d],\"conversationId\":\"abc\"\x7d"

/-- The value the sample import file parses to. -/
def sampleImportData : JSValue :=
  JSValue.obj
    [(utf16 "messages",
        JSValue.arr [JSValue.obj [(utf16 "type", JSValue.str (utf16 "user")),
                                  (utf16 "content", JSValue.str (utf16 "hi"))]]),
     (utf16 "conversationId", JSValue.str (utf16 "abc"))]

/-- A platform that agrees with a browser on the JSON texts used in the examples (`[]`, `null`
and the sample import file) and on the values `[]` and `null`; it is arbitrary elsewhere. -/
def samplePlatform : Platform where
  stringify v :=
    match v with
    | .arr [] => utf16 "[]"
    | _ => utf16 "null"
  parse text :=
    if text = utf16 "[]" then .ok (JSValue.arr [])
    else if text = utf16 "null" then .ok JSValue.null
    else if text = sampleImportText then .ok sampleImportData
    else .error ⟨utf16 "SyntaxError", utf16 "Unexpected token"⟩
  parseFloat _ := CONFIG.DEFAULT_TEMPERATURE
  numberToString _ := utf16 "0"

/-- A clock reading: half past ten, at the double `1.0` of the epoch clock. -/
def sampleClock : Clock := ⟨utf16 "10:30", 4607182418800017408⟩

/-- The defaults of the settings fields that mirror the defaults of `config.js`. -/
def configDefaults : FormDefaults :=
  ⟨CONFIG.DEFAULT_SERVER_URL, [], utf16 "0.7", CONFIG.DEFAULT_USE_STREAMING⟩

/-- A freshly loaded page with empty storage. -/
def sampleWorld : World := freshWorld configDefaults []

/-- The bytes of an ASCII text. -/
def asciiBytes (s : String) : List Nat := s.toList.map Char.toNat

/-- A response body delivered in two chunks, cut inside a line: two content lines and a
comment line. -/
def sampleChunks : List (List Nat) :=
  [asciiBytes "data: Hel", asciiBytes "lo\n: ping\ndata: !\n"]

/-- A response body in two chunks with an error marker between two content lines. -/
def sampleErrorChunks : List (List Nat) :=
  [asciiBytes "data: par", asciiBytes "tial\ndata: [ERROR] boom\ndata: late\n"]

/-- A response body whose error marker is not followed by a space. -/
def markerWithoutSpaceChunks : List (List Nat) :=
  [asciiBytes "data: [ERROR]boom\n"]

/-- A page on which a stream is live and has received `abc`. -/
def liveWorld : World :=
  UI.updateStreamingMessage (utf16 "abc") (UI.createStreamingMessage sampleClock sampleWorld)

/-- A disconnected page whose input holds the text `hello` between blanks. -/
def disconnectedWorld : World :=
  { sampleWorld with ui := { sampleWorld.ui with messageInput := utf16 " hello " } }

/-- A page whose server URL field has been emptied. -/
def blankUrlWorld : World :=
  { sampleWorld with ui := { sampleWorld.ui with serverUrl := [] } }

/-- A fresh page over a storage whose chat history entry is the JSON text `null`. -/
def nullHistoryWorld : World :=
  freshWorld configDefaults [(CONFIG.STORAGE_KEYS.CHAT_HISTORY, utf16 "null")]

/-- A connected page that already holds a conversation: one record in the history and a
conversation id. -/
def usedWorld : World :=
  { sampleWorld with
    app := { sampleWorld.app with
      isConnected := true
      messages := JSValue.arr [aiRecord (utf16 "old") (utf16 "09:00") 0]
      conversationId := JSValue.str (utf16 "old-id") } }

/-! ## The events of a session -/

/-- The decoder states that occur: between characters, or inside a character whose value
so far is positive or whose next byte is bounded below so that the value becomes positive
before the character is complete. -/
def Utf8Decoder.Consistent (d : Utf8Decoder) : Prop :=
  d.bytesNeeded = 0 ∨
    (128 ≤ d.lower ∧ d.upper ≤ 191 ∧
      (1 ≤ d.codePoint ∨ (129 ≤ d.lower ∧ d.bytesSeen + 1 < d.bytesNeeded)))

/-- One event of a session: the user edits the input or the settings fields, a handler of the
page runs, or one of the `UI` stream operations runs on its own (the points at which
`Chat.sendStreamingMessage` is suspended between two reads). -/
inductive PageEvent where
  | typeMessage (text : JSString)
  | editSettings (serverUrl conversationId temperature : JSString) (useStreaming : Bool)
  | send (userClock startClock endClock : Clock) (stream : StreamReply) (chat : ChatReply)
  | saveSettings (health : Option Bool)
  | loadSettings
  | loadChatHistory (clock : Clock)
  | clear (clock : Clock) (confirmed : Bool)
  | importFile (clock : Clock) (fileText : JSString)
  | checkServer (reply : Option Bool)
  | beginStream (clock : Clock)
  | streamChunk (chunk : JSString)
  | endStream (clock : Clock)

/-- The effect of one event on the world; an error a handler throws is dropped, the world it
leaves is kept. -/
def step (P : Platform) : PageEvent → World → World
  | .typeMessage text, w => { w with ui := { w.ui with messageInput := text } }
  | .editSettings serverUrl conversationId temperature useStreaming, w =>
    { w with ui := { w.ui with
        serverUrl := serverUrl
        conversationId := conversationId
        temperature := temperature
        useStreaming := useStreaming } }
  | .send userClock startClock endClock stream chat, w =>
    (Chat.sendMessage P userClock startClock endClock stream chat w).world
  | .saveSettings health, w => UI.saveSettings P health w
  | .loadSettings, w => UI.loadSettings P w
  | .loadChatHistory clock, w => UI.loadChatHistory P clock w
  | .clear clock confirmed, w => (ChatApp.clearChat P clock confirmed w).world
  | .importFile clock fileText, w => ChatApp.importHistory P clock fileText w
  | .checkServer reply, w => Chat.checkServerStatus reply w
  | .beginStream clock, w => UI.createStreamingMessage clock w
  | .streamChunk chunk, w => UI.updateStreamingMessage chunk w
  | .endStream clock, w => (UI.finishStreamingMessage P clock w).world

/-- The world after a sequence of events. -/
def run (P : Platform) : List PageEvent → World → World
  | [], w => w
  | a :: rest, w => run P rest (step P a w)

/-- The `conversation_id` the server supplies at an event: the one in the JSON of an accepted
regular chat response, when the event is a send that reaches `Chat.sendRegularMessage`. -/
def serverSupplied (a : PageEvent) (w : World) : List JSValue :=
  match a with
  | .send _ _ _ _ (.response true _ _ (.ok data)) =>
    if !(jsTrim w.ui.messageInput).isEmpty && w.app.isConnected && !w.app.useStreaming then
      match data.getProp (utf16 "conversation_id") with
      | .ok newId => [newId]
      | .error _ => []
    else []
  | _ => []

/-- The conversation id the client side supplies at an event: the text of the settings field
when the settings are saved, the stored text when they are loaded, the `conversationId` of
an imported file. -/
def clientSupplied (P : Platform) (a : PageEvent) (w : World) : List JSValue :=
  match a with
  | .saveSettings _ => [JSValue.str w.ui.conversationId]
  | .loadSettings =>
    match w.storage.getItem CONFIG.STORAGE_KEYS.CONVERSATION_ID with
    | some stored => [JSValue.str stored]
    | none => []
  | .importFile _ fileText =>
    match P.parse fileText with
    | .ok data =>
      match data.getProp (utf16 "conversationId") with
      | .ok newId => [newId]
      | .error _ => []
    | .error _ => []
  | _ => []

/-- The conversation ids the server supplied along a sequence of events. -/
def serverSuppliedAlong (P : Platform) : List PageEvent → World → List JSValue
  | [], _ => []
  | a :: rest, w => serverSupplied a w ++ serverSuppliedAlong P rest (step P a w)

/-- The conversation ids the client side supplied along a sequence of events. -/
def clientSuppliedAlong (P : Platform) : List PageEvent → World → List JSValue
  | [], _ => []
  | a :: rest, w => clientSupplied P a w ++ clientSuppliedAlong P rest (step P a w)

/-- The values `AppState.messages` takes after each event of a sequence. -/
def historiesAlong (P : Platform) : List PageEvent → World → List JSValue
  | [], _ => []
  | a :: rest, w => (step P a w).app.messages :: historiesAlong P rest (step P a w)

/-- The relation between the worlds before and after a piece of code that treats the stored
history properly: either the stored history and `AppState.messages` are both what they were,
or the stored history is the serialisation of `AppState.messages` as it now is. -/
def historyStep (P : Platform) (w after : World) : Prop :=
  (after.storage.getItem CONFIG.STORAGE_KEYS.CHAT_HISTORY =
      w.storage.getItem CONFIG.STORAGE_KEYS.CHAT_HISTORY ∧
    after.app.messages = w.app.messages) ∨
  after.storage.getItem CONFIG.STORAGE_KEYS.CHAT_HISTORY = some (P.stringify after.app.messages)

/-- A session in which the user types a conversation id into the settings and the change is
saved; the server is never contacted. -/
def typedIdSession : List PageEvent :=
  [PageEvent.editSettings CONFIG.DEFAULT_SERVER_URL (utf16 "my-id") (utf16 "0.7") true,
   PageEvent.saveSettings none]

/-- The JSON of a regular reply with the text `hi` and the conversation id `abc`. -/
def sampleReplyData : JSValue :=
  JSValue.obj [(utf16 "response", JSValue.str (utf16 "hi")),
               (utf16 "conversation_id", JSValue.str (utf16 "abc"))]

/-- A streamed body whose last line, an error marker, is not terminated. -/
def unterminatedErrorTail : List Nat := asciiBytes "data: [ERROR] boom"

/-! ## A platform whose JSON functions are computed -/

/-- The decimal digits of a natural number below `10 ^ fuel`, as code units. -/
def decimalDigits : Nat → Nat → JSString
  | 0, _ => []
  | fuel + 1, n => if n < 10 then [48 + n] else decimalDigits fuel (n / 10) ++ [48 + n % 10]

/-- The magnitude of a double that is an integer of magnitude below `2 ^ 53`. -/
def integerMagnitude (bits : Nat) : Option Nat :=
  let e := bits % 2 ^ 63 / 2 ^ 52
  let m := bits % 2 ^ 52
  if bits % 2 ^ 63 = 0 then some 0
  else if 1023 ≤ e ∧ e ≤ 1075 ∧ (2 ^ 52 + m) % 2 ^ (1075 - e) = 0 then
    some ((2 ^ 52 + m) / 2 ^ (1075 - e))
  else none

/-- The largest `k` up to the bound with `2 ^ k ≤ n`, or zero. -/
def binaryExponent (n : Nat) : Nat → Nat
  | 0 => 0
  | k + 1 => if 2 ^ (k + 1) ≤ n then k + 1 else binaryExponent n k

/-- The double equal to a natural number below `2 ^ 53`. -/
def doubleOfNat (n : Nat) : Nat :=
  if n = 0 then 0
  else (1023 + binaryExponent n 52) * 2 ^ 52 + (n * 2 ^ (52 - binaryExponent n 52) - 2 ^ 52)

/-- The text `Number::toString` gives a double that is an integer of magnitude below `2 ^ 53`,
or is not finite.  Other doubles are outside this sample and get the text of `NaN`. -/
def integerText (bits : Nat) : JSString :=
  if bits / 2 ^ 52 % 2048 = 2047 then
    if bits % 2 ^ 52 ≠ 0 then utf16 "NaN"
    else if bits < 2 ^ 63 then utf16 "Infinity" else utf16 "-Infinity"
  else
    match integerMagnitude bits with
    | some 0 => utf16 "0"
    | some n => (if bits < 2 ^ 63 then [] else utf16 "-") ++ decimalDigits 16 n
    | none => utf16 "NaN"

/-- The value of a run of decimal digits. -/
def digitsValue (digits : JSString) : Nat :=
  digits.foldl (fun n c => 10 * n + (c - 48)) 0

/-- The double denoted by a JSON number token that is an integer of magnitude below `2 ^ 53`
written without fraction and exponent.  Other tokens are outside this sample. -/
def integerOfText (token : JSString) : Option Nat :=
  let negative := jsStartsWith (utf16 "-") token
  let digits := if negative then token.drop 1 else token
  if digits.isEmpty || !digits.all (fun c => 48 ≤ c && c ≤ 57) then none
  else if digits.length > 1 && digits.head? == some 48 then none
  else if 2 ^ 53 ≤ digitsValue digits then none
  else some ((if negative then 2 ^ 63 else 0) + doubleOfNat (digitsValue digits))

namespace JSON

/-- A lowercase hexadecimal digit, as a code unit. -/
def hexDigit (n : Nat) : Nat :=
  if n < 10 then 48 + n else 87 + n

/-- The abstract operation `UnicodeEscape`: a backslash, `u` and four hexadecimal digits. -/
def unicodeEscape (c : Nat) : JSString :=
  [92, 117, hexDigit (c / 4096 % 16), hexDigit (c / 256 % 16), hexDigit (c / 16 % 16), hexDigit (c % 16)]

/-- What `QuoteJSONString` writes for one code unit that is not half of a surrogate pair: the
short escapes, `UnicodeEscape` below the space and for a lone surrogate, the unit itself
otherwise. -/
def quoteUnit (c : Nat) : JSString :=
  if c = 8 then utf16 "\\b"
  else if c = 9 then utf16 "\\t"
  else if c = 10 then utf16 "\\n"
  else if c = 12 then utf16 "\\f"
  else if c = 13 then utf16 "\\r"
  else if c = 34 then utf16 "\\\""
  else if c = 92 then utf16 "\\\\"
  else if c < 32 || (55296 ≤ c && c ≤ 57343) then unicodeEscape c
  else [c]

/-- The text of `QuoteJSONString` between the quotes: a leading surrogate followed by a
trailing one is copied as a pair, every other code unit goes through `quoteUnit`. -/
def quoteUnits : JSString → JSString
  | [] => []
  | [c] => quoteUnit c
  | c :: d :: rest =>
    if 55296 ≤ c ∧ c ≤ 56319 ∧ 56320 ≤ d ∧ d ≤ 57343 then c :: d :: quoteUnits rest
    else quoteUnit c ++ quoteUnits (d :: rest)

/-- The abstract operation `QuoteJSONString`. -/
def quote (s : JSString) : JSString :=
  utf16 "\"" ++ quoteUnits s ++ utf16 "\""

mutual
/-- The abstract operation `SerializeJSONProperty` without indentation, on a JSON-shaped
value: `none` is `undefined`.  `numberText` is `Number::toString`.  The fields of an object
are written in the order of the list, the order in which `defineField` keeps them. -/
def serialize (numberText : Nat → JSString) : JSValue → Option JSString
  | .undefined => none
  | .null => some (utf16 "null")
  | .bool b => some (if b then utf16 "true" else utf16 "false")
  | .num bits => some (if bits / 2 ^ 52 % 2048 = 2047 then utf16 "null" else numberText bits)
  | .str s => some (quote s)
  | .arr items => some (utf16 "[" ++ List.intercalate (utf16 ",") (elementTexts numberText items) ++ utf16 "]")
  | .obj fields => some (utf16 "\x7b" ++ List.intercalate (utf16 ",") (memberTexts numberText fields) ++ utf16 "\x7d")
/-- The texts of the elements of an array: `null` for an element that has no text. -/
def elementTexts (numberText : Nat → JSString) : List JSValue → List JSString
  | [] => []
  | x :: rest =>
    (match serialize numberText x with
      | some text => text
      | none => utf16 "null") :: elementTexts numberText rest
/-- The texts of the members of an object: a member whose value has no text is left out. -/
def memberTexts (numberText : Nat → JSString) : List (JSString × JSValue) → List JSString
  | [] => []
  | (key, x) :: rest =>
    match serialize numberText x with
    | some text => (quote key ++ utf16 ":" ++ text) :: memberTexts numberText rest
    | none => memberTexts numberText rest
end

/-- The function `JSON.stringify(value)` followed by the conversion to a string that
`localStorage.setItem` makes: `undefined` becomes the text `undefined`. -/
def stringify (numberText : Nat → JSString) (value : JSValue) : JSString :=
  match serialize numberText value with
  | some text => text
  | none => utf16 "undefined"

/-- JSON white space: tab, line feed, carriage return, space. -/
def isWhitespace (c : Nat) : Bool :=
  c == 9 || c == 10 || c == 13 || c == 32

/-- Drops leading JSON white space. -/
def skipWhitespace (text : JSString) : JSString :=
  text.dropWhile isWhitespace

/-- The value of a hexadecimal digit. -/
def hexValue (c : Nat) : Option Nat :=
  if 48 ≤ c ∧ c ≤ 57 then some (c - 48)
  else if 97 ≤ c ∧ c ≤ 102 then some (c - 87)
  else if 65 ≤ c ∧ c ≤ 70 then some (c - 55)
  else none

/-- The code unit of a single-character escape. -/
def simpleEscape (c : Nat) : Option Nat :=
  if c = 34 then some 34
  else if c = 92 then some 92
  else if c = 47 then some 47
  else if c = 98 then some 8
  else if c = 102 then some 12
  else if c = 110 then some 10
  else if c = 114 then some 13
  else if c = 116 then some 9
  else none

/-- Reads a JSON string after its opening quote: the string and the text after the closing
quote. -/
def readString : JSString → Option (JSString × JSString)
  | [] => none
  | c :: rest =>
    if c = 34 then some ([], rest)
    else if c = 92 then
      match rest with
      | [] => none
      | e :: rest1 =>
        if e = 117 then
          match rest1 with
          | a :: b :: x :: y :: rest2 =>
            match hexValue a, hexValue b, hexValue x, hexValue y with
            | some a, some b, some x, some y =>
              match readString rest2 with
              | some (s, after) => some ((a * 4096 + b * 256 + x * 16 + y) :: s, after)
              | none => none
            | _, _, _, _ => none
          | _ => none
        else
          match simpleEscape e with
          | some u =>
            match readString rest1 with
            | some (s, after) => some (u :: s, after)
            | none => none
          | none => none
    else if c < 32 then none
    else
      match readString rest with
      | some (s, after) => some (c :: s, after)
      | none => none

/-- The array index a property key denotes, if it is one: a canonical decimal numeral up to
`2 ^ 32 - 2`. -/
def arrayIndex (key : JSString) : Option Nat :=
  if key.isEmpty || !key.all (fun c => 48 ≤ c && c ≤ 57) then none
  else if key.length > 1 && key.head? == some 48 then none
  else if digitsValue key ≤ 4294967294 then some (digitsValue key)
  else none

/-- Whether a new key is enumerated before an existing one: an array index comes before a key
that is none and before a larger index. -/
def comesBefore (key existing : JSString) : Bool :=
  match arrayIndex key, arrayIndex existing with
  | some i, some j => i < j
  | some _, none => true
  | none, _ => false

/-- Defines a property on the object being built, keeping the properties in the order in which
they are enumerated: the value of a key already present is replaced where it stands, a new
array index goes among the indices in ascending order, any other new key goes to the end. -/
def defineField (key : JSString) (value : JSValue) :
    List (JSString × JSValue) → List (JSString × JSValue)
  | [] => [(key, value)]
  | (k, v) :: rest =>
    if k = key then (k, value) :: rest
    else if comesBefore key k then (key, value) :: (k, v) :: rest
    else (k, v) :: defineField key value rest

/-- The code units a JSON number token is made of. -/
def isNumberUnit (c : Nat) : Bool :=
  (48 ≤ c && c ≤ 57) || c == 43 || c == 45 || c == 46 || c == 69 || c == 101

mutual
/-- Reads one JSON value at the head of a text, after white space: the value and the text
after it.  `numberOfText` gives the double of a number token.  The first argument bounds the
number of nested calls. -/
def readValue (numberOfText : JSString → Option Nat) : Nat → JSString → Option (JSValue × JSString)
  | 0, _ => none
  | fuel + 1, text =>
    match skipWhitespace text with
    | [] => none
    | c :: rest =>
      if c = 34 then
        match readString rest with
        | some (s, after) => some (JSValue.str s, after)
        | none => none
      else if c = 91 then
        match skipWhitespace rest with
        | d :: after =>
          if d = 93 then some (JSValue.arr [], after)
          else
            match readElements numberOfText fuel rest with
            | some (items, after) => some (JSValue.arr items, after)
            | none => none
        | [] => none
      else if c = 123 then
        match skipWhitespace rest with
        | d :: after =>
          if d = 125 then some (JSValue.obj [], after)
          else
            match readMembers numberOfText fuel [] rest with
            | some (fields, after) => some (JSValue.obj fields, after)
            | none => none
        | [] => none
      else if jsStartsWith (utf16 "true") (c :: rest) then some (JSValue.bool true, rest.drop 3)
      else if jsStartsWith (utf16 "false") (c :: rest) then some (JSValue.bool false, rest.drop 4)
      else if jsStartsWith (utf16 "null") (c :: rest) then some (JSValue.null, rest.drop 3)
      else
        match numberOfText ((c :: rest).takeWhile isNumberUnit) with
        | some bits => some (JSValue.num bits, (c :: rest).dropWhile isNumberUnit)
        | none => none
/-- Reads the elements of a non-empty array up to and including the closing bracket. -/
def readElements (numberOfText : JSString → Option Nat) : Nat → JSString → Option (List JSValue × JSString)
  | 0, _ => none
  | fuel + 1, text =>
    match readValue numberOfText fuel text with
    | none => none
    | some (x, after) =>
      match skipWhitespace after with
      | [] => none
      | c :: rest =>
        if c = 93 then some ([x], rest)
        else if c = 44 then
          match readElements numberOfText fuel rest with
          | some (items, after) => some (x :: items, after)
          | none => none
        else none
/-- Reads the members of a non-empty object up to and including the closing brace. -/
def readMembers (numberOfText : JSString → Option Nat) :
    Nat → List (JSString × JSValue) → JSString → Option (List (JSString × JSValue) × JSString)
  | 0, _, _ => none
  | fuel + 1, fields, text =>
    match skipWhitespace text with
    | [] => none
    | q :: rest =>
      if q = 34 then
        match readString rest with
        | none => none
        | some (key, after) =>
          match skipWhitespace after with
          | [] => none
          | colon :: rest1 =>
            if colon = 58 then
              match readValue numberOfText fuel rest1 with
              | none => none
              | some (x, after1) =>
                match skipWhitespace after1 with
                | [] => none
                | c :: rest2 =>
                  if c = 125 then some (defineField key x fields, rest2)
                  else if c = 44 then readMembers numberOfText fuel (defineField key x fields) rest2
                  else none
            else none
      else none
end

/-- The function `JSON.parse(text)`: one value between white space and nothing else, a
`SyntaxError` otherwise (its message is engine-specific). -/
def parse (numberOfText : JSString → Option Nat) (text : JSString) : Except JSError JSValue :=
  match readValue numberOfText (2 * text.length + 2) text with
  | some (value, after) =>
    if skipWhitespace after = [] then .ok value
    else .error ⟨utf16 "SyntaxError", utf16 "Unexpected token"⟩
  | none => .error ⟨utf16 "SyntaxError", utf16 "Unexpected token"⟩

end JSON

/-- A platform whose JSON functions are computed: `JSON.stringify` and `JSON.parse` as
ECMAScript defines them, on values and texts whose numbers are integers of magnitude below
`2 ^ 53`.  A number outside that range is not treated as a browser treats it: it is written
as `NaN` and its token is rejected.  `parseFloat` is given on the numerals of such integers
and on the text `0.7`; on any other text it returns `NaN`, as a browser does for a text that
does not begin with a number. -/
def jsonPlatform : Platform where
  stringify := JSON.stringify integerText
  parse := JSON.parse integerOfText
  parseFloat text :=
    if text = utf16 "0.7" then CONFIG.DEFAULT_TEMPERATURE
    else
      match integerOfText text with
      | some bits => bits
      | none => 9221120237041090560
  numberToString := integerText

/-- The JSON of a regular reply whose text holds a line feed, a quotation mark and a character
outside the basic plane, and which supplies the conversation id `conv-42`. -/
def editedReplyData : JSValue :=
  JSValue.obj [(utf16 "response", JSValue.str (utf16 "¡Hola!\nSoy \"IA\" 😀")),
               (utf16 "conversation_id", JSValue.str (utf16 "conv-42"))]

/-- A session that leaves no setting at its default: the user enters another server URL,
sets the temperature to `1` and turns streaming off, the change is saved and the server
answers the status check; the user then sends a message and the server replies with a new
conversation id.  The clocks read the doubles `1700000000000` and `1700000000123`. -/
def editedSession : List PageEvent :=
  [PageEvent.editSettings (utf16 "http://example.org:9000") [] (utf16 "1") false,
   PageEvent.saveSettings (some true),
   PageEvent.typeMessage (utf16 " di \"hola\" "),
   PageEvent.send ⟨utf16 "10:29", 4789786004267466752⟩ ⟨utf16 "10:29", 4789786004267466752⟩
     ⟨utf16 "10:30", 4789786004267970560⟩ (.response true 200 (utf16 "OK") [])
     (.response true 200 (utf16 "OK") (.ok editedReplyData))]

/-- The page after the edited session, started on a fresh page with empty storage. -/
def editedWorld : World :=
  run jsonPlatform editedSession (freshWorld configDefaults [])

/-- The history of the edited page. -/
def editedHistory : JSValue :=
  JSValue.arr
    [JSValue.obj
      [(utf16 "type", JSValue.str (utf16 "user")), (utf16 "content", JSValue.str (utf16 "di \"hola\"")),
       (utf16 "time", JSValue.str (utf16 "10:29")), (utf16 "timestamp", JSValue.num 4789786004267466752)],
     aiRecord (utf16 "¡Hola!\nSoy \"IA\" 😀") (utf16 "10:30") 4789786004267970560]

/-- The JSON text of the history of the edited page. -/
def editedHistoryText : JSString :=
  utf16 ("[\x7b\"type\":\"user\",\"content\":\"di \\\"hola\\\"\",\"time\":\"10:29\"," ++
    "\"timestamp\":1700000000000\x7d,\x7b\"type\":\"ai\",\"content\":\"¡Hola!\\nSoy \\\"IA\\\" 😀\"," ++
    "\"time\":\"10:30\",\"timestamp\":1700000000123\x7d]")

/-! ## Lemmas on splitting a text into lines -/

theorem splitNewline_ne_nil (s : JSString) : splitNewline s ≠ [] := by
  cases s with
  | nil => simp [splitNewline]
  | cons c cs =>
    unfold splitNewline
    split
    · simp
    · split <;> simp
theorem splitNewline_eq_cons (s : JSString) : ∃ p ps, splitNewline s = p :: ps := by
  cases h : splitNewline s with
  | nil => exact absurd h (splitNewline_ne_nil s)
  | cons p ps => exact ⟨p, ps, rfl⟩

theorem splitNewline_lf (cs : JSString) : splitNewline (10 :: cs) = [] :: splitNewline cs := by
  simp [splitNewline]

theorem splitNewline_cons {c : Nat} (hc : c ≠ 10) (cs : JSString) {p : JSString}
    {ps : List JSString} (h : splitNewline cs = p :: ps) :
    splitNewline (c :: cs) = (c :: p) :: ps := by
  simp [splitNewline, hc, h]

theorem splitNewline_append (s t : JSString) :
    splitNewline (s ++ t) =
      (splitNewline s).dropLast ++ splitNewline ((splitNewline s).getLastD [] ++ t) := by
  induction s with
  | nil => simp [splitNewline]
  | cons c cs ih =>
    have hne := splitNewline_ne_nil cs
    by_cases hc : c = 10
    · subst hc
      rw [List.cons_append, splitNewline_lf, splitNewline_lf, ih]
      cases h : splitNewline cs with
      | nil => exact absurd h hne
      | cons p ps => simp [List.dropLast, List.getLastD]
    · cases h : splitNewline cs with
      | nil => exact absurd h hne
      | cons p ps =>
        rw [h] at ih
        rw [splitNewline_cons hc cs h]
        cases ps with
        | nil =>
          have ih1 : splitNewline (cs ++ t) = splitNewline (p ++ t) := by
            rw [ih]; rfl
          show splitNewline (c :: (cs ++ t)) = splitNewline (c :: (p ++ t))
          obtain ⟨q, qs, h2⟩ := splitNewline_eq_cons (p ++ t)
          rw [h2] at ih1
          rw [splitNewline_cons hc _ ih1, splitNewline_cons hc _ h2]
        | cons q qs =>
          have ih2 : splitNewline (cs ++ t) = p :: ((q :: qs).dropLast ++
              splitNewline ((q :: qs).getLastD [] ++ t)) := by
            rw [ih]; simp [List.dropLast, List.getLastD]
          rw [List.cons_append, splitNewline_cons hc _ ih2]
          simp [List.dropLast, List.getLastD]

theorem splitNewline_of_no_lf (p : JSString) (h : 10 ∉ p) : splitNewline p = [p] := by
  induction p with
  | nil => rfl
  | cons c cs ih =>
    have hc : c ≠ 10 := fun e => h (by simp [e])
    have hcs : 10 ∉ cs := fun e => h (by simp [e])
    exact splitNewline_cons hc cs (ih hcs)

theorem splitNewline_pieces_no_lf (s : JSString) : ∀ p ∈ splitNewline s, 10 ∉ p := by
  induction s with
  | nil => intro p hp; simp [splitNewline] at hp; simp [hp]
  | cons c cs ih =>
    by_cases hc : c = 10
    · subst hc
      rw [splitNewline_lf]
      intro p hp
      rcases List.mem_cons.mp hp with h | h
      · simp [h]
      · exact ih p h
    · obtain ⟨q, qs, hq⟩ := splitNewline_eq_cons cs
      rw [splitNewline_cons hc cs hq]
      rw [hq] at ih
      intro p hp
      rcases List.mem_cons.mp hp with h | h
      · subst h
        have := ih q (by simp)
        simp only [List.mem_cons, not_or]
        exact ⟨fun e => hc e.symm, this⟩
      · exact ih p (by simp [h])

theorem completeLines_getLastD (s : JSString) :
    completeLines ((splitNewline s).getLastD []) = [] := by
  obtain ⟨q, qs, hq⟩ := splitNewline_eq_cons s
  have hmem : (splitNewline s).getLastD [] ∈ splitNewline s := by
    rw [hq, List.getLastD_cons]
    exact List.getLastD_mem_cons _ _
  have := splitNewline_of_no_lf _ (splitNewline_pieces_no_lf s _ hmem)
  unfold completeLines
  rw [this]
  rfl

theorem completeLines_append (s t : JSString) :
    completeLines (s ++ t) = completeLines s ++ completeLines ((splitNewline s).getLastD [] ++ t) := by
  unfold completeLines
  rw [splitNewline_append, List.dropLast_append_of_ne_nil _ (splitNewline_ne_nil _)]


/-! ## Lemmas on the stream loop -/

theorem Outcome.ok_andThen (w : World) (f : World → Outcome) : (Outcome.ok w).andThen f = f w := rfl
theorem Outcome.throw_andThen (w : World) (e : JSError) (f : World → Outcome) :
    (Outcome.throw w e).andThen f = Outcome.throw w e := rfl

theorem processLines_append (l1 l2 : List JSString) (w : World) :
    Chat.processLines (l1 ++ l2) w = (Chat.processLines l1 w).andThen (Chat.processLines l2) := by
  induction l1 generalizing w with
  | nil => rfl
  | cons line rest ih =>
    simp only [List.cons_append, Chat.processLines]
    split
    · split
      · rfl
      · split
        · exact ih _
        · exact ih _
    · exact ih _

theorem decode_cons (d : TextDecoder) (x : Nat) (xs : List Nat) :
    d.decode (x :: xs) =
      (((d.step x).1.decode xs).1, (d.step x).2 ++ ((d.step x).1.decode xs).2) := rfl

theorem decode_append (d : TextDecoder) (a b : List Nat) :
    d.decode (a ++ b) = (((d.decode a).1.decode b).1, (d.decode a).2 ++ ((d.decode a).1.decode b).2) := by
  induction a generalizing d with
  | nil => simp [TextDecoder.decode]
  | cons x xs ih =>
    rw [List.cons_append, decode_cons, decode_cons, ih]
    simp

theorem readLoop_eq (chunks : List (List Nat)) (decoder : TextDecoder) (buffer : JSString)
    (w : World) (hb : completeLines buffer = []) :
    Chat.readLoop chunks decoder buffer w =
      Chat.processLines (completeLines (buffer ++ (decoder.decode chunks.flatten).2)) w := by
  induction chunks generalizing decoder buffer w with
  | nil => simp [Chat.readLoop, TextDecoder.decode, hb, Chat.processLines]
  | cons value rest ih =>
    simp only [Chat.readLoop, List.flatten_cons]
    rw [decode_append]
    simp only []
    rw [← List.append_assoc, completeLines_append, processLines_append]
    congr 1
    funext w1
    exact ih _ _ w1 (completeLines_getLastD _)

/-- The stream loop started by `sendStreamingMessage` depends on the chunks only through the
text of the body. -/
theorem readLoop_fresh (chunks : List (List Nat)) (w : World) :
    Chat.readLoop chunks TextDecoder.fresh [] w =
      Chat.processLines (completeLines (responseText chunks)) w := by
  rw [readLoop_eq chunks TextDecoder.fresh [] w rfl]
  rfl

theorem responseText_single (chunks : List (List Nat)) :
    responseText [chunks.flatten] = responseText chunks := by
  simp [responseText]

theorem updateStreamingMessage_live (chunk : JSString) (w : World) (acc : StreamingMessage)
    (hlive : w.app.currentStreamingMessage = some acc) :
    UI.updateStreamingMessage chunk w =
      { w with
        app := { w.app with currentStreamingMessage := some { acc with content := acc.content ++ chunk } }
        ui := { w.ui with chatMessages := (UI.setNodeHtml acc.element
          (replaceNewlines (acc.content ++ chunk)) w.ui.chatMessages) } } := by
  simp only [UI.updateStreamingMessage, hlive]

theorem processLines_no_error (lines : List JSString) (w : World) (acc : StreamingMessage)
    (hlive : w.app.currentStreamingMessage = some acc)
    (hno : ∀ l ∈ lines, isErrorLine l = false) :
    ∃ nodes, Chat.processLines lines w = Outcome.ok
      { w with
        app := { w.app with currentStreamingMessage := (some
          { acc with content := acc.content ++ ((lines.filter isContentLine).map payload).flatten }) }
        ui := { w.ui with chatMessages := nodes } } := by
  induction lines generalizing w acc with
  | nil =>
    refine ⟨w.ui.chatMessages, ?_⟩
    simp [Chat.processLines, ← hlive]
  | cons line rest ih =>
    have hline : isErrorLine line = false := hno line (by simp)
    have hrest : ∀ l ∈ rest, isErrorLine l = false := fun l hl => hno l (by simp [hl])
    by_cases hd : jsStartsWith (utf16 "data: ") line = true
    · have he : jsStartsWith (utf16 "[ERROR]") (List.drop 6 line) = false := by
        simpa [isErrorLine, hd, payload] using hline
      by_cases hc : (jsTrim (List.drop 6 line)).isEmpty = true
      · have hcl : isContentLine line = false := by simp [isContentLine, hd, payload, hc]
        obtain ⟨nodes, h⟩ := ih w acc hlive hrest
        refine ⟨nodes, ?_⟩
        simp only [Chat.processLines, hd, he, hc, if_true, List.filter_cons, hcl]
        simpa using h
      · have hcl : isContentLine line = true := by simp [isContentLine, hd, payload, hc]
        obtain ⟨nodes, h⟩ := ih (UI.updateStreamingMessage (List.drop 6 line) w)
          { acc with content := acc.content ++ List.drop 6 line }
          (by rw [updateStreamingMessage_live _ _ _ hlive]) hrest
        refine ⟨nodes, ?_⟩
        simp only [Chat.processLines, hd, he, hc, if_true, List.filter_cons, hcl]
        simp only [Bool.not_false, if_true, Bool.false_eq_true, if_false] 
        rw [h, updateStreamingMessage_live _ _ _ hlive]
        simp [payload, List.append_assoc]
    · have hcl : isContentLine line = false := by simp [isContentLine, hd]
      obtain ⟨nodes, h⟩ := ih w acc hlive hrest
      refine ⟨nodes, ?_⟩
      simp only [Chat.processLines, hd, List.filter_cons, hcl]
      simpa using h

theorem processLines_first_error (lines : List JSString) (w : World) (acc : StreamingMessage)
    (l : JSString) (hlive : w.app.currentStreamingMessage = some acc)
    (hfind : lines.find? isErrorLine = some l) :
    ∃ nodes content, Chat.processLines lines w = Outcome.throw
      { w with
        app := { w.app with currentStreamingMessage := (some { acc with content := content }) }
        ui := { w.ui with chatMessages := nodes } }
      (JSError.ofMessage ((payload l).drop 8)) := by
  induction lines generalizing w acc with
  | nil => simp at hfind
  | cons line rest ih =>
    by_cases hline : isErrorLine line = true
    · have hl : line = l := by simpa [List.find?_cons, hline] using hfind
      subst hl
      have hd : jsStartsWith (utf16 "data: ") line = true := by
        simp only [isErrorLine, Bool.and_eq_true] at hline; exact hline.1
      have he : jsStartsWith (utf16 "[ERROR]") (List.drop 6 line) = true := by
        simp only [isErrorLine, Bool.and_eq_true, payload] at hline; exact hline.2
      refine ⟨w.ui.chatMessages, acc.content, ?_⟩
      simp only [Chat.processLines, hd, he, if_true, payload]
      simp [← hlive]
    · have hline : isErrorLine line = false := by simpa using hline
      have hfind2 : rest.find? isErrorLine = some l := by
        simpa [List.find?_cons, hline] using hfind
      by_cases hd : jsStartsWith (utf16 "data: ") line = true
      · have he : jsStartsWith (utf16 "[ERROR]") (List.drop 6 line) = false := by
          simpa [isErrorLine, hd, payload] using hline
        by_cases hc : (jsTrim (List.drop 6 line)).isEmpty = true
        · obtain ⟨nodes, content, h⟩ := ih w acc hlive hfind2
          refine ⟨nodes, content, ?_⟩
          simp only [Chat.processLines, hd, he, hc, if_true]
          simpa using h
        · obtain ⟨nodes, content, h⟩ := ih (UI.updateStreamingMessage (List.drop 6 line) w)
            { acc with content := acc.content ++ List.drop 6 line }
            (by rw [updateStreamingMessage_live _ _ _ hlive]) hfind2
          refine ⟨nodes, content, ?_⟩
          simp only [Chat.processLines, hd, he, hc, if_true]
          simp only [Bool.not_false, if_true, Bool.false_eq_true, if_false]
          rw [h, updateStreamingMessage_live _ _ _ hlive]
      · obtain ⟨nodes, content, h⟩ := ih w acc hlive hfind2
        refine ⟨nodes, content, ?_⟩
        simp only [Chat.processLines, hd]
        simpa using h

theorem updates_live (chunks : List JSString) (w : World) (acc : StreamingMessage)
    (hlive : w.app.currentStreamingMessage = some acc) :
    ∃ nodes, chunks.foldl (fun s chunk => UI.updateStreamingMessage chunk s) w =
      { w with
        app := { w.app with currentStreamingMessage :=
          (some { acc with content := acc.content ++ chunks.flatten }) }
        ui := { w.ui with chatMessages := nodes } } := by
  induction chunks generalizing w acc with
  | nil =>
    refine ⟨w.ui.chatMessages, ?_⟩
    simp [← hlive]
  | cons chunk rest ih =>
    obtain ⟨nodes, h⟩ := ih (UI.updateStreamingMessage chunk w)
      { acc with content := acc.content ++ chunk }
      (by rw [updateStreamingMessage_live _ _ _ hlive])
    refine ⟨nodes, ?_⟩
    rw [List.foldl_cons, h, updateStreamingMessage_live _ _ _ hlive]
    simp [List.append_assoc]


/-! ## Lemmas on the storage and on rebuilding the page -/

theorem getItem_setItem_same (st : LocalStorage) (key value : JSString) :
    (st.setItem key value).getItem key = some value := by
  induction st with
  | nil => simp [LocalStorage.setItem, LocalStorage.getItem]
  | cons kv rest ih =>
    obtain ⟨k, v⟩ := kv
    by_cases h : k = key
    · simp [LocalStorage.setItem, LocalStorage.getItem, h]
    · simp only [LocalStorage.setItem, LocalStorage.getItem, h, if_false]
      exact ih

theorem getItem_setItem_ne (st : LocalStorage) (key other value : JSString) (hne : key ≠ other) :
    (st.setItem key value).getItem other = st.getItem other := by
  induction st with
  | nil => simp [LocalStorage.setItem, LocalStorage.getItem, hne]
  | cons kv rest ih =>
    obtain ⟨k, v⟩ := kv
    by_cases h : k = key
    · subst h
      simp [LocalStorage.setItem, LocalStorage.getItem, hne]
    · by_cases h2 : k = other
      · subst h2
        simp [LocalStorage.setItem, LocalStorage.getItem, h]
      · simp only [LocalStorage.setItem, LocalStorage.getItem, h, h2, if_false]
        exact ih

theorem addMessage_unsaved (P : Platform) (clock : Clock) (type content time : JSValue) (w : World) :
    ∃ nodes n, (UI.addMessage P clock type content time false w).world =
      { w with ui := { w.ui with chatMessages := nodes }, nextNode := n } := by
  cases hT : JSValue.toJSString P type with
  | error e => exact ⟨w.ui.chatMessages, w.nextNode, by simp only [UI.addMessage, hT]; rfl⟩
  | ok typeText =>
    cases hTime : JSValue.toJSString P (if time.truthy then time else JSValue.str clock.time) with
    | error e =>
      refine ⟨w.ui.chatMessages, w.nextNode, ?_⟩
      cases content <;> simp only [UI.addMessage, hT, hTime] <;> rfl
    | ok timeText =>
      cases content with
      | str text =>
        exact ⟨_, _, by simp only [UI.addMessage, hT, hTime]; rfl⟩
      | _ => exact ⟨w.ui.chatMessages, w.nextNode, by simp only [UI.addMessage, hT]; rfl⟩

theorem forEachAddMessage_world (P : Platform) (clock : Clock) (items : List JSValue) (w : World) :
    ∃ nodes n, (UI.forEachAddMessage P clock items w).world =
      { w with ui := { w.ui with chatMessages := nodes }, nextNode := n } := by
  induction items generalizing w with
  | nil => exact ⟨w.ui.chatMessages, w.nextNode, rfl⟩
  | cons msg rest ih =>
    unfold UI.forEachAddMessage
    split
    · rename_i type content time _ _ _
      obtain ⟨nodes, n, h⟩ := addMessage_unsaved P clock type content time w
      cases ht : (UI.addMessage P clock type content time false w).thrown with
      | none =>
        obtain ⟨nodes2, n2, h2⟩ := ih (UI.addMessage P clock type content time false w).world
        refine ⟨nodes2, n2, ?_⟩
        simp only [Outcome.andThen, ht]
        rw [h2, h]
      | some e =>
        refine ⟨nodes, n, ?_⟩
        simp only [Outcome.andThen, ht]
        exact h
    · exact ⟨w.ui.chatMessages, w.nextNode, rfl⟩
    · exact ⟨w.ui.chatMessages, w.nextNode, rfl⟩
    · exact ⟨w.ui.chatMessages, w.nextNode, rfl⟩

theorem loadChatHistory_parsed (P : Platform) (clock : Clock) (w : World) (saved : JSString)
    (v : JSValue) (hs : w.storage.getItem CONFIG.STORAGE_KEYS.CHAT_HISTORY = some saved)
    (hne : saved ≠ []) (hp : P.parse saved = .ok v) :
    ∃ nodes n, UI.loadChatHistory P clock w =
      { w with
        app := { w.app with messages := v }
        ui := { w.ui with chatMessages := nodes }
        nextNode := n } := by
  cases saved with
  | nil => exact absurd rfl hne
  | cons c cs =>
    simp only [UI.loadChatHistory, hs, hp]
    obtain ⟨nodes1, n1, h1⟩ := addMessage_unsaved P clock (JSValue.str (utf16 "ai"))
      (JSValue.str CONFIG.MESSAGES.WELCOME) (JSValue.str (utf16 "Ahora"))
      (UI.setChatMessages [] { w with app := { w.app with messages := v } })
    cases ht : (UI.addMessage P clock (JSValue.str (utf16 "ai"))
      (JSValue.str CONFIG.MESSAGES.WELCOME) (JSValue.str (utf16 "Ahora")) false
      (UI.setChatMessages [] { w with app := { w.app with messages := v } })).thrown with
    | some e =>
      refine ⟨nodes1, n1, ?_⟩
      simp only [Outcome.andThen, ht]
      rw [h1]
      rfl
    | none =>
      simp only [Outcome.andThen, ht]
      cases v with
      | arr items =>
        obtain ⟨nodes2, n2, h2⟩ := forEachAddMessage_world P clock items
          (UI.addMessage P clock (JSValue.str (utf16 "ai"))
            (JSValue.str CONFIG.MESSAGES.WELCOME) (JSValue.str (utf16 "Ahora")) false
            (UI.setChatMessages [] { w with app := { w.app with messages := JSValue.arr items } })).world
        refine ⟨nodes2, n2, ?_⟩
        simp only []
        rw [h2, h1]
        rfl
      | _ =>
        refine ⟨nodes1, n1, ?_⟩
        simp only [Outcome.throw]
        rw [h1]
        rfl

/-- The value a stored text setting takes on load: the stored text when present and not
empty, the current one otherwise. -/
theorem loadSettings_fields (P : Platform) (x : World) :
    (UI.loadSettings P x).storage = x.storage ∧
    (UI.loadSettings P x).app.messages = x.app.messages ∧
    (UI.loadSettings P x).ui.serverUrl =
      (match x.storage.getItem CONFIG.STORAGE_KEYS.SERVER_URL with
        | some (c :: cs) => c :: cs
        | _ => x.ui.serverUrl) ∧
    (UI.loadSettings P x).ui.conversationId =
      (match x.storage.getItem CONFIG.STORAGE_KEYS.CONVERSATION_ID with
        | some (c :: cs) => c :: cs
        | _ => x.ui.conversationId) ∧
    (UI.loadSettings P x).ui.temperature =
      (match x.storage.getItem CONFIG.STORAGE_KEYS.TEMPERATURE with
        | some (c :: cs) => c :: cs
        | _ => x.ui.temperature) ∧
    (UI.loadSettings P x).ui.useStreaming =
      (match x.storage.getItem CONFIG.STORAGE_KEYS.USE_STREAMING with
        | some s => s == utf16 "true"
        | none => x.ui.useStreaming) := by
  unfold UI.loadSettings
  rcases x.storage.getItem CONFIG.STORAGE_KEYS.SERVER_URL with _ | _ | _ <;>
  rcases x.storage.getItem CONFIG.STORAGE_KEYS.CONVERSATION_ID with _ | _ | _ <;>
  rcases x.storage.getItem CONFIG.STORAGE_KEYS.TEMPERATURE with _ | _ | _ <;>
  rcases x.storage.getItem CONFIG.STORAGE_KEYS.USE_STREAMING with _ | _ <;>
  exact ⟨rfl, rfl, rfl, rfl, rfl, rfl⟩

theorem saveSettings_fields (P : Platform) (health : Option Bool) (w : World) :
    (UI.saveSettings P health w).storage =
      (((w.storage.setItem CONFIG.STORAGE_KEYS.SERVER_URL w.ui.serverUrl).setItem
        CONFIG.STORAGE_KEYS.CONVERSATION_ID w.ui.conversationId).setItem
        CONFIG.STORAGE_KEYS.TEMPERATURE w.ui.temperature).setItem
        CONFIG.STORAGE_KEYS.USE_STREAMING (if w.ui.useStreaming then utf16 "true" else utf16 "false") ∧
    (UI.saveSettings P health w).app.messages = w.app.messages := by
  unfold UI.saveSettings
  by_cases h : (w.app.serverUrl != w.ui.serverUrl) = true
  · simp only [h, if_true]
    cases health <;> exact ⟨rfl, rfl⟩
  · simp only [h]
    exact ⟨rfl, rfl⟩

theorem saveState_getItem (P : Platform) (health : Option Bool) (w : World) :
    (saveState P health w).storage.getItem CONFIG.STORAGE_KEYS.SERVER_URL = some w.ui.serverUrl ∧
    (saveState P health w).storage.getItem CONFIG.STORAGE_KEYS.CONVERSATION_ID =
      some w.ui.conversationId ∧
    (saveState P health w).storage.getItem CONFIG.STORAGE_KEYS.TEMPERATURE = some w.ui.temperature ∧
    (saveState P health w).storage.getItem CONFIG.STORAGE_KEYS.USE_STREAMING =
      some (if w.ui.useStreaming then utf16 "true" else utf16 "false") ∧
    (saveState P health w).storage.getItem CONFIG.STORAGE_KEYS.CHAT_HISTORY =
      some (P.stringify w.app.messages) := by
  obtain ⟨hst, hmsg⟩ := saveSettings_fields P health w
  simp only [saveState, UI.saveChatHistory, hst, hmsg]
  refine ⟨?_, ?_, ?_, ?_, ?_⟩
  · rw [getItem_setItem_ne _ _ _ _ (by decide), getItem_setItem_ne _ _ _ _ (by decide),
      getItem_setItem_ne _ _ _ _ (by decide), getItem_setItem_ne _ _ _ _ (by decide),
      getItem_setItem_same]
  · rw [getItem_setItem_ne _ _ _ _ (by decide), getItem_setItem_ne _ _ _ _ (by decide),
      getItem_setItem_ne _ _ _ _ (by decide), getItem_setItem_same]
  · rw [getItem_setItem_ne _ _ _ _ (by decide), getItem_setItem_ne _ _ _ _ (by decide),
      getItem_setItem_same]
  · rw [getItem_setItem_ne _ _ _ _ (by decide), getItem_setItem_same]
  · rw [getItem_setItem_same]

theorem loadState_fields (P : Platform) (clock : Clock) (form : FormDefaults) (st : LocalStorage)
    (saved : JSString) (v : JSValue)
    (hs : st.getItem CONFIG.STORAGE_KEYS.CHAT_HISTORY = some saved)
    (hne : saved ≠ []) (hp : P.parse saved = .ok v) :
    (loadState P clock form st).app.messages = v ∧
    (loadState P clock form st).ui.serverUrl =
      (match st.getItem CONFIG.STORAGE_KEYS.SERVER_URL with
        | some (c :: cs) => c :: cs
        | _ => form.serverUrl) ∧
    (loadState P clock form st).ui.conversationId =
      (match st.getItem CONFIG.STORAGE_KEYS.CONVERSATION_ID with
        | some (c :: cs) => c :: cs
        | _ => form.conversationId) ∧
    (loadState P clock form st).ui.temperature =
      (match st.getItem CONFIG.STORAGE_KEYS.TEMPERATURE with
        | some (c :: cs) => c :: cs
        | _ => form.temperature) ∧
    (loadState P clock form st).ui.useStreaming =
      (match st.getItem CONFIG.STORAGE_KEYS.USE_STREAMING with
        | some s => s == utf16 "true"
        | none => form.useStreaming) := by
  obtain ⟨nodes, n, h⟩ := loadChatHistory_parsed P clock (freshWorld form st) saved v hs hne hp
  obtain ⟨_, h2, h3, h4, h5, h6⟩ := loadSettings_fields P (UI.loadChatHistory P clock (freshWorld form st))
  unfold loadState
  rw [h2, h3, h4, h5, h6, h]
  exact ⟨rfl, rfl, rfl, rfl, rfl⟩

theorem addMessage_strings (P : Platform) (clock : Clock) (t c : JSString) (time : JSValue)
    (w : World) (htime : time = JSValue.undefined ∨ ∃ s, time = JSValue.str s) :
    ∃ nodes n, UI.addMessage P clock (JSValue.str t) (JSValue.str c) time false w =
      Outcome.ok { w with ui := { w.ui with chatMessages := nodes }, nextNode := n } := by
  rcases htime with h | ⟨s, h⟩
  · subst h
    exact ⟨_, _, rfl⟩
  · subst h
    cases s with
    | nil => exact ⟨_, _, rfl⟩
    | cons a as => exact ⟨_, _, rfl⟩

theorem wellFormed_fields (m : JSValue) (h : isWellFormedMessage m = true) :
    ∃ fields t c, m = JSValue.obj fields ∧
      lookupField (utf16 "type") fields = JSValue.str t ∧
      lookupField (utf16 "content") fields = JSValue.str c ∧
      (lookupField (utf16 "time") fields = JSValue.undefined ∨
        ∃ s, lookupField (utf16 "time") fields = JSValue.str s) := by
  cases m with
  | obj fields =>
    simp only [isWellFormedMessage, Bool.and_eq_true] at h
    obtain ⟨⟨h1, h2⟩, h3⟩ := h
    cases ht : lookupField (utf16 "type") fields <;> rw [ht] at h1 <;> simp at h1
    cases hc : lookupField (utf16 "content") fields <;> rw [hc] at h2 <;> simp at h2
    refine ⟨fields, _, _, rfl, ht, hc, ?_⟩
    cases hm : lookupField (utf16 "time") fields <;> rw [hm] at h3 <;> simp at h3
    · exact Or.inl rfl
    · exact Or.inr ⟨_, rfl⟩
  | _ => simp [isWellFormedMessage] at h

theorem forEachAddMessage_wellFormed (P : Platform) (clock : Clock) (items : List JSValue)
    (w : World) (hwf : ∀ m ∈ items, isWellFormedMessage m = true) :
    ∃ nodes n, UI.forEachAddMessage P clock items w =
      Outcome.ok { w with ui := { w.ui with chatMessages := nodes }, nextNode := n } := by
  induction items generalizing w with
  | nil => exact ⟨w.ui.chatMessages, w.nextNode, rfl⟩
  | cons msg rest ih =>
    obtain ⟨fields, t, c, hm, ht, hc, htime⟩ := wellFormed_fields msg (hwf msg (by simp))
    subst hm
    obtain ⟨nodes, n, h⟩ := addMessage_strings P clock t c (lookupField (utf16 "time") fields) w htime
    obtain ⟨nodes2, n2, h2⟩ := ih { w with ui := { w.ui with chatMessages := nodes }, nextNode := n }
      (fun m hmem => hwf m (by simp [hmem]))
    refine ⟨nodes2, n2, ?_⟩
    simp only [UI.forEachAddMessage, JSValue.getProp, ht, hc, h, Outcome.ok_andThen, h2]

theorem clearChat_eq (P : Platform) (clock : Clock) (w : World) :
    ∃ nodes n, UI.clearChat P clock w = Outcome.ok
      { w with
        app := { w.app with messages := JSValue.arr [], conversationId := JSValue.str [] }
        ui := { w.ui with chatMessages := nodes, conversationId := [] }
        storage := (w.storage.setItem CONFIG.STORAGE_KEYS.CHAT_HISTORY
          (P.stringify (JSValue.arr []))).removeItem CONFIG.STORAGE_KEYS.CONVERSATION_ID
        nextNode := n } := by
  exact ⟨_, _, rfl⟩


theorem loadChatHistory_frame (P : Platform) (clock : Clock) (w : World) :
    ∃ messages nodes n, UI.loadChatHistory P clock w =
      { w with
        app := { w.app with messages := messages }
        ui := { w.ui with chatMessages := nodes }
        nextNode := n } := by
  cases hs : w.storage.getItem CONFIG.STORAGE_KEYS.CHAT_HISTORY with
  | none => exact ⟨w.app.messages, w.ui.chatMessages, w.nextNode, by simp only [UI.loadChatHistory, hs]⟩
  | some saved =>
    cases saved with
    | nil => exact ⟨w.app.messages, w.ui.chatMessages, w.nextNode, by simp only [UI.loadChatHistory, hs]⟩
    | cons c cs =>
      cases hp : P.parse (c :: cs) with
      | error e =>
        exact ⟨w.app.messages, w.ui.chatMessages, w.nextNode, by simp only [UI.loadChatHistory, hs, hp]⟩
      | ok v =>
        obtain ⟨nodes, n, h⟩ := loadChatHistory_parsed P clock w (c :: cs) v hs (by simp) hp
        exact ⟨v, nodes, n, h⟩

/-- The round trip of an emptied server URL field on any platform and any page: the first
save stores the empty text, the save after the load stores the default of the page. -/
theorem round_trip_of_blank_server_url (P : Platform) (clock : Clock) (form : FormDefaults)
    (health1 health2 : Option Bool) (w : World) (hblank : w.ui.serverUrl = []) :
    (saveState P health1 w).storage.getItem CONFIG.STORAGE_KEYS.SERVER_URL = some [] ∧
    (saveState P health2
      (loadState P clock form (saveState P health1 w).storage)).storage.getItem
        CONFIG.STORAGE_KEYS.SERVER_URL = some form.serverUrl := by
  obtain ⟨a1, _⟩ := saveState_getItem P health1 w
  obtain ⟨b1, _⟩ := saveState_getItem P health2
    (loadState P clock form (saveState P health1 w).storage)
  obtain ⟨messages, nodes, n, h⟩ := loadChatHistory_frame P clock
    (freshWorld form (saveState P health1 w).storage)
  obtain ⟨_, _, c3, _⟩ := loadSettings_fields P
    (UI.loadChatHistory P clock (freshWorld form (saveState P health1 w).storage))
  rw [hblank] at a1
  refine ⟨a1, ?_⟩
  rw [b1]
  unfold loadState
  rw [c3, h]
  simp only []
  have : (freshWorld form (saveState P health1 w).storage).storage = (saveState P health1 w).storage := rfl
  rw [this, a1]
  rfl

/-! ## The claims -/

/-- C1. Chunk-split invariance: whatever the way a response body is cut into chunks,
`Chat.sendStreamingMessage` ends in the same world and with the same thrown error as when the
whole body arrives as one chunk. -/
theorem sendStreamingMessage_chunk_split_invariant (P : Platform) (startClock endClock : Clock)
    (ok : Bool) (status : Nat) (statusText : JSString) (chunks : List (List Nat))
    (message : JSString) (w : World) :
    Chat.sendStreamingMessage P startClock endClock (.response ok status statusText chunks) message w =
      Chat.sendStreamingMessage P startClock endClock
        (.response ok status statusText [chunks.flatten]) message w := by
  simp only [Chat.sendStreamingMessage, readLoop_fresh, responseText_single]

/-- C2. Reference definition of the stream assembler: when no complete line carries the error
marker, the stream loop ends normally with the accumulator holding exactly the reference
content (the payloads of the complete `data: ` lines whose payload is not blank, concatenated
in order of arrival), and `Chat.sendStreamingMessage` commits exactly that content as one
`ai` record. -/
theorem sendStreamingMessage_assembles_reference_content (P : Platform)
    (startClock endClock : Clock) (status : Nat) (statusText : JSString)
    (chunks : List (List Nat)) (message : JSString) (w : World) (items : List JSValue)
    (hno : ∀ l ∈ completeLines (responseText chunks), isErrorLine l = false)
    (hm : w.app.messages = JSValue.arr items) :
    ((Chat.readLoop chunks TextDecoder.fresh [] (UI.createStreamingMessage startClock w)).thrown = none ∧
     ((Chat.readLoop chunks TextDecoder.fresh []
        (UI.createStreamingMessage startClock w)).world.app.currentStreamingMessage.map
          fun acc => acc.content) = some (assembledContent (responseText chunks))) ∧
    (Chat.sendStreamingMessage P startClock endClock
        (.response true status statusText chunks) message w).thrown = none ∧
    (Chat.sendStreamingMessage P startClock endClock
        (.response true status statusText chunks) message w).world.app.messages =
      JSValue.arr (items ++
        [aiRecord (assembledContent (responseText chunks)) startClock.time endClock.now]) := by
  obtain ⟨nodes1, h1⟩ := processLines_no_error (completeLines (responseText chunks))
    (UI.createStreamingMessage startClock w) ⟨w.nextNode, [], startClock.time⟩ rfl hno
  obtain ⟨nodes2, h2⟩ := processLines_no_error (completeLines (responseText chunks))
    (UI.createStreamingMessage startClock
      (Chat.logRequest (w.app.serverUrl ++ CONFIG.ENDPOINTS.CHAT_STREAM)
        (some (P.stringify (Chat.requestBody message w))) w))
    ⟨w.nextNode, [], startClock.time⟩ rfl hno
  simp only [Chat.sendStreamingMessage, readLoop_fresh, h1, h2]
  obtain ⟨⟨serverUrl, conversationId, temperature, useStreaming, isConnected, messages, current,
    isTyping⟩, ui, storage, requests, nextNode⟩ := w
  simp only at hm
  subst hm
  exact ⟨⟨rfl, rfl⟩, rfl, rfl⟩


/-- Witness for C2 on a body cut inside its first line: the committed content is `Hello!`. -/
theorem sendStreamingMessage_assembles_reference_content_witness :
    (Chat.sendStreamingMessage samplePlatform sampleClock sampleClock
        (.response true 200 (utf16 "OK") sampleChunks) (utf16 "hi") sampleWorld).thrown = none ∧
    (Chat.sendStreamingMessage samplePlatform sampleClock sampleClock
        (.response true 200 (utf16 "OK") sampleChunks) (utf16 "hi") sampleWorld).world.app.messages =
      JSValue.arr [aiRecord (utf16 "Hello!") (utf16 "10:30") 4607182418800017408] :=
  (sendStreamingMessage_assembles_reference_content samplePlatform sampleClock sampleClock 200
    (utf16 "OK") sampleChunks (utf16 "hi") sampleWorld [] (by decide) rfl).2

/-- C3. After `UI.createStreamingMessage`, any sequence of `UI.updateStreamingMessage` calls and
then `UI.finishStreamingMessage`, the history (an array) has grown by exactly one `ai` record
whose content is the concatenation of the chunks in arrival order, the earlier records are
unchanged, nothing is thrown and the accumulator is cleared. -/
theorem finishStreamingMessage_commits_concatenation (P : Platform) (startClock endClock : Clock)
    (chunks : List JSString) (w : World) (items : List JSValue)
    (hm : w.app.messages = JSValue.arr items) :
    (UI.finishStreamingMessage P endClock
      (chunks.foldl (fun s chunk => UI.updateStreamingMessage chunk s)
        (UI.createStreamingMessage startClock w))).thrown = none ∧
    (UI.finishStreamingMessage P endClock
      (chunks.foldl (fun s chunk => UI.updateStreamingMessage chunk s)
        (UI.createStreamingMessage startClock w))).world.app.messages =
      JSValue.arr (items ++ [aiRecord chunks.flatten startClock.time endClock.now]) ∧
    (UI.finishStreamingMessage P endClock
      (chunks.foldl (fun s chunk => UI.updateStreamingMessage chunk s)
        (UI.createStreamingMessage startClock w))).world.app.currentStreamingMessage = none := by
  obtain ⟨nodes, h⟩ := updates_live chunks (UI.createStreamingMessage startClock w)
    ⟨w.nextNode, [], startClock.time⟩ rfl
  rw [h]
  obtain ⟨⟨serverUrl, conversationId, temperature, useStreaming, isConnected, messages, current,
    isTyping⟩, ui, storage, requests, nextNode⟩ := w
  simp only at hm
  subst hm
  exact ⟨rfl, rfl, rfl⟩


/-- Witness for C3: three chunks after an existing record. -/
theorem finishStreamingMessage_commits_concatenation_witness :
    (UI.finishStreamingMessage samplePlatform sampleClock
      ([utf16 "a", utf16 "b\n", utf16 "c"].foldl (fun s chunk => UI.updateStreamingMessage chunk s)
        (UI.createStreamingMessage sampleClock usedWorld))).world.app.messages =
      JSValue.arr [aiRecord (utf16 "old") (utf16 "09:00") 0,
        aiRecord (utf16 "ab\nc") (utf16 "10:30") 4607182418800017408] :=
  (finishStreamingMessage_commits_concatenation samplePlatform sampleClock sampleClock
    [utf16 "a", utf16 "b\n", utf16 "c"] usedWorld
    [aiRecord (utf16 "old") (utf16 "09:00") 0] rfl).2.1

/-- C4. In-band error rollback: when some complete line carries the error marker,
`Chat.sendStreamingMessage` throws, the accumulator is null afterwards, and the history and
the storage are what they were before the call; when the response was accepted, the error
thrown is the one of the first marked line, whatever precedes or follows it. -/
theorem sendStreamingMessage_error_rolls_back (P : Platform) (startClock endClock : Clock)
    (ok : Bool) (status : Nat) (statusText : JSString) (chunks : List (List Nat))
    (message : JSString) (w : World)
    (herr : ∃ l ∈ completeLines (responseText chunks), isErrorLine l = true) :
    (Chat.sendStreamingMessage P startClock endClock
        (.response ok status statusText chunks) message w).thrown.isSome = true ∧
    (Chat.sendStreamingMessage P startClock endClock
        (.response ok status statusText chunks) message w).world.app.currentStreamingMessage = none ∧
    (Chat.sendStreamingMessage P startClock endClock
        (.response ok status statusText chunks) message w).world.app.messages = w.app.messages ∧
    (Chat.sendStreamingMessage P startClock endClock
        (.response ok status statusText chunks) message w).world.storage = w.storage ∧
    (ok = true →
      (Chat.sendStreamingMessage P startClock endClock
          (.response ok status statusText chunks) message w).thrown =
        ((completeLines (responseText chunks)).find? isErrorLine).map
          fun l => JSError.ofMessage ((payload l).drop 8)) := by
  cases ok with
  | false =>
    simp only [Chat.sendStreamingMessage]
    cases hc : w.app.currentStreamingMessage with
    | none =>
      refine ⟨?_, ?_, ?_, ?_, ?_⟩
      · simp [Outcome.throw, Chat.logRequest, hc]
      · simp [Outcome.throw, Chat.logRequest, hc]
      · simp [Outcome.throw, Chat.logRequest, hc]
      · simp [Outcome.throw, Chat.logRequest, hc]
      · simp
    | some acc =>
      refine ⟨?_, ?_, ?_, ?_, ?_⟩
      · simp [Outcome.throw, Chat.logRequest, hc]
      · simp [Outcome.throw, Chat.logRequest, hc]
      · simp [Outcome.throw, Chat.logRequest, hc, UI.setChatMessages]
      · simp [Outcome.throw, Chat.logRequest, hc, UI.setChatMessages]
      · simp
  | true =>
    obtain ⟨l0, hl0, he0⟩ := herr
    obtain ⟨l, hfind⟩ : ∃ l, (completeLines (responseText chunks)).find? isErrorLine = some l := by
      cases hf : (completeLines (responseText chunks)).find? isErrorLine with
      | none =>
        rw [List.find?_eq_none] at hf
        exact absurd he0 (hf l0 hl0)
      | some l => exact ⟨l, rfl⟩
    obtain ⟨nodes, content, h⟩ := processLines_first_error (completeLines (responseText chunks))
      (UI.createStreamingMessage startClock
        (Chat.logRequest (w.app.serverUrl ++ CONFIG.ENDPOINTS.CHAT_STREAM)
          (some (P.stringify (Chat.requestBody message w))) w))
      ⟨w.nextNode, [], startClock.time⟩ l rfl hfind
    simp only [Chat.sendStreamingMessage, readLoop_fresh, h, hfind]
    exact ⟨rfl, rfl, rfl, rfl, fun _ => rfl⟩


/-- Witness for C4: a marker after partial content and before a later line; the error carries
`boom`, and the history stays the one record it was. -/
theorem sendStreamingMessage_error_rolls_back_witness :
    (Chat.sendStreamingMessage samplePlatform sampleClock sampleClock
        (.response true 200 (utf16 "OK") sampleErrorChunks) (utf16 "hi") usedWorld).thrown.isSome = true ∧
    (Chat.sendStreamingMessage samplePlatform sampleClock sampleClock
        (.response true 200 (utf16 "OK") sampleErrorChunks) (utf16 "hi")
          usedWorld).world.app.currentStreamingMessage = none ∧
    (Chat.sendStreamingMessage samplePlatform sampleClock sampleClock
        (.response true 200 (utf16 "OK") sampleErrorChunks) (utf16 "hi") usedWorld).world.app.messages =
      usedWorld.app.messages ∧
    (Chat.sendStreamingMessage samplePlatform sampleClock sampleClock
        (.response true 200 (utf16 "OK") sampleErrorChunks) (utf16 "hi") usedWorld).world.storage =
      usedWorld.storage :=
  have h := sendStreamingMessage_error_rolls_back samplePlatform sampleClock sampleClock true 200
    (utf16 "OK") sampleErrorChunks (utf16 "hi") usedWorld
    ⟨utf16 "data: [ERROR] boom", by decide, by decide⟩
  ⟨h.1, h.2.1, h.2.2.1, h.2.2.2.1⟩


/-- C5, counterexample. On a page whose live accumulator holds `abc`, `UI.createStreamingMessage`
does not fail: it installs an accumulator whose content is empty. -/
theorem createStreamingMessage_replaces_live_accumulator :
    liveWorld.app.currentStreamingMessage.map (fun acc => acc.content) = some (utf16 "abc") ∧
    (UI.createStreamingMessage sampleClock liveWorld).app.currentStreamingMessage.map
      (fun acc => acc.content) = some [] := by
  decide


/-- C5, amended. `UI.createStreamingMessage` has no guard: in every state it makes a fresh
accumulator with empty content the current streaming message, and a chunk passed to
`UI.updateStreamingMessage` afterwards is appended to that one accumulator. -/
theorem createStreamingMessage_installs_fresh_accumulator (clock : Clock) (w : World) :
    (UI.createStreamingMessage clock w).app.currentStreamingMessage =
      some ⟨w.nextNode, [], clock.time⟩ ∧
    ∀ chunk : JSString,
      (UI.updateStreamingMessage chunk (UI.createStreamingMessage clock w)).app.currentStreamingMessage =
        some ⟨w.nextNode, chunk, clock.time⟩ := by
  exact ⟨rfl, fun _ => rfl⟩


/-- C6, the code at the failing input. For the body `data: [ERROR]boom` the error thrown by
`Chat.sendStreamingMessage` has the message `oom`: the marker tested has seven code units
and eight are cut. -/
theorem sendStreamingMessage_marker_without_space (P : Platform) (startClock endClock : Clock)
    (message : JSString) (w : World) :
    (Chat.sendStreamingMessage P startClock endClock
      (.response true 200 (utf16 "OK") markerWithoutSpaceChunks) message w).thrown =
      some (JSError.ofMessage (utf16 "oom")) := by
  rfl

/-- C7. Not-connected guard: when the trimmed input is not empty and `AppState.isConnected` is
false, `Chat.sendMessage` returns normally having issued no request, left `AppState` (the
history and the accumulator included) and the storage untouched, and appended exactly the
banner of the disconnected error to the page. -/
theorem sendMessage_not_connected (P : Platform) (userClock startClock endClock : Clock)
    (stream : StreamReply) (chat : ChatReply) (w : World)
    (htext : jsTrim w.ui.messageInput ≠ []) (hconn : w.app.isConnected = false) :
    (Chat.sendMessage P userClock startClock endClock stream chat w).thrown = none ∧
    (Chat.sendMessage P userClock startClock endClock stream chat w).world.requests = w.requests ∧
    (Chat.sendMessage P userClock startClock endClock stream chat w).world.app = w.app ∧
    (Chat.sendMessage P userClock startClock endClock stream chat w).world.storage = w.storage ∧
    (Chat.sendMessage P userClock startClock endClock stream chat w).world.ui.chatMessages =
      w.ui.chatMessages ++
        [DomNode.error (CONFIG.MESSAGES.ERROR_PREFIX ++ CONFIG.MESSAGES.DISCONNECTED)] := by
  have hempty : (jsTrim w.ui.messageInput).isEmpty = false := by
    cases h : jsTrim w.ui.messageInput with
    | nil => exact absurd h htext
    | cons c cs => rfl
  have h : Chat.sendMessage P userClock startClock endClock stream chat w =
      Outcome.ok (UI.showError CONFIG.MESSAGES.DISCONNECTED w) := by
    unfold Chat.sendMessage
    simp [hempty, hconn]
  rw [h]
  exact ⟨rfl, rfl, rfl, rfl, rfl⟩

/-- Witness for C7: the text `hello` on a disconnected page, with a server that would answer. -/
theorem sendMessage_not_connected_witness :
    (Chat.sendMessage samplePlatform sampleClock sampleClock sampleClock
      (.response true 200 (utf16 "OK") sampleChunks)
      (.response true 200 (utf16 "OK") (.ok JSValue.null)) disconnectedWorld).world.requests = [] ∧
    (Chat.sendMessage samplePlatform sampleClock sampleClock sampleClock
      (.response true 200 (utf16 "OK") sampleChunks)
      (.response true 200 (utf16 "OK") (.ok JSValue.null)) disconnectedWorld).world.app =
        disconnectedWorld.app :=
  have h := sendMessage_not_connected samplePlatform sampleClock sampleClock sampleClock
    (.response true 200 (utf16 "OK") sampleChunks)
    (.response true 200 (utf16 "OK") (.ok JSValue.null)) disconnectedWorld (by decide) rfl
  ⟨h.2.1, h.2.2.1⟩

/-- C8, counterexample. On the page whose server URL field has been emptied, the first save
stores the empty text under the server URL key; on a page whose fields show the defaults of
`config.js`, the save that follows a load of that storage into a fresh page stores the default
URL there; and on every platform and every page whose server URL field is not empty by
default, that save stores a text other than the one the first save stored. -/
theorem round_trip_changes_blank_server_url :
    (saveState jsonPlatform none blankUrlWorld).storage.getItem CONFIG.STORAGE_KEYS.SERVER_URL =
      some [] ∧
    (saveState jsonPlatform none
      (loadState jsonPlatform sampleClock configDefaults
        (saveState jsonPlatform none blankUrlWorld).storage)).storage.getItem
          CONFIG.STORAGE_KEYS.SERVER_URL = some CONFIG.DEFAULT_SERVER_URL ∧
    (∀ (P : Platform) (clock : Clock) (form : FormDefaults) (health1 health2 : Option Bool),
      form.serverUrl ≠ [] →
        (saveState P health2
          (loadState P clock form (saveState P health1 blankUrlWorld).storage)).storage.getItem
            CONFIG.STORAGE_KEYS.SERVER_URL ≠
        (saveState P health1 blankUrlWorld).storage.getItem CONFIG.STORAGE_KEYS.SERVER_URL) := by
  refine ⟨by decide, by decide, ?_⟩
  intro P clock form health1 health2 hform heq
  obtain ⟨h1, h2⟩ := round_trip_of_blank_server_url P clock form health1 health2 blankUrlWorld rfl
  rw [h1, h2] at heq
  exact hform (Option.some.inj heq)

/-- C8, amended. When each of the three text fields is non-empty or equal to the default of
the page, and the platform parses the serialised history back to a value that serialises to
the same text, then saving, loading into a fresh page and saving again leaves the values
under all five storage keys identical to those of the first save. -/
theorem persistence_round_trip (P : Platform) (clock : Clock) (form : FormDefaults)
    (health1 health2 : Option Bool) (w : World) (v : JSValue)
    (hurl : w.ui.serverUrl ≠ [] ∨ w.ui.serverUrl = form.serverUrl)
    (hcid : w.ui.conversationId ≠ [] ∨ w.ui.conversationId = form.conversationId)
    (htemp : w.ui.temperature ≠ [] ∨ w.ui.temperature = form.temperature)
    (hne : P.stringify w.app.messages ≠ [])
    (hparse : P.parse (P.stringify w.app.messages) = .ok v)
    (hagain : P.stringify v = P.stringify w.app.messages) :
    ∀ key ∈ storageKeys,
      (saveState P health2
        (loadState P clock form (saveState P health1 w).storage)).storage.getItem key =
      (saveState P health1 w).storage.getItem key := by
  obtain ⟨a1, a2, a3, a4, a5⟩ := saveState_getItem P health1 w
  obtain ⟨b1, b2, b3, b4, b5⟩ := saveState_getItem P health2
    (loadState P clock form (saveState P health1 w).storage)
  obtain ⟨c1, c2, c3, c4, c5⟩ := loadState_fields P clock form (saveState P health1 w).storage
    (P.stringify w.app.messages) v a5 hne hparse
  rw [a1] at c2
  rw [a2] at c3
  rw [a3] at c4
  rw [a4] at c5
  intro key hkey
  simp only [storageKeys, List.mem_cons, List.mem_singleton, List.not_mem_nil, or_false] at hkey
  rcases hkey with rfl | rfl | rfl | rfl | rfl
  · rw [b1, a1, c2]
    cases hu : w.ui.serverUrl with
    | nil =>
      rcases hurl with h | h
      · exact absurd hu h
      · rw [← h, hu]
    | cons c cs => rfl
  · rw [b2, a2, c3]
    cases hu : w.ui.conversationId with
    | nil =>
      rcases hcid with h | h
      · exact absurd hu h
      · rw [← h, hu]
    | cons c cs => rfl
  · rw [b3, a3, c4]
    cases hu : w.ui.temperature with
    | nil =>
      rcases htemp with h | h
      · exact absurd hu h
      · rw [← h, hu]
    | cons c cs => rfl
  · rw [b4, a4, c5]
    cases w.ui.useStreaming <;> rfl
  · rw [b5, a5, c1, hagain]


set_option maxRecDepth 100000 in
/-- Witness for C8 (amended): the page after the edited session, on the platform whose JSON
functions are computed.  The first save stores the edited settings and the JSON text of the
two records of the history, none of them the value a fresh page has, and the save after the
load stores the same five values. -/
theorem persistence_round_trip_witness :
    ((saveState jsonPlatform none editedWorld).storage.getItem CONFIG.STORAGE_KEYS.SERVER_URL =
        some (utf16 "http://example.org:9000") ∧
      (saveState jsonPlatform none editedWorld).storage.getItem CONFIG.STORAGE_KEYS.CONVERSATION_ID =
        some (utf16 "conv-42") ∧
      (saveState jsonPlatform none editedWorld).storage.getItem CONFIG.STORAGE_KEYS.TEMPERATURE =
        some (utf16 "1") ∧
      (saveState jsonPlatform none editedWorld).storage.getItem CONFIG.STORAGE_KEYS.USE_STREAMING =
        some (utf16 "false") ∧
      (saveState jsonPlatform none editedWorld).storage.getItem CONFIG.STORAGE_KEYS.CHAT_HISTORY =
        some editedHistoryText) ∧
    (saveState jsonPlatform none
        (loadState jsonPlatform sampleClock configDefaults
          (saveState jsonPlatform none editedWorld).storage)).storage.getItem
            CONFIG.STORAGE_KEYS.SERVER_URL =
      (saveState jsonPlatform none editedWorld).storage.getItem CONFIG.STORAGE_KEYS.SERVER_URL ∧
    (saveState jsonPlatform none
        (loadState jsonPlatform sampleClock configDefaults
          (saveState jsonPlatform none editedWorld).storage)).storage.getItem
            CONFIG.STORAGE_KEYS.CONVERSATION_ID =
      (saveState jsonPlatform none editedWorld).storage.getItem CONFIG.STORAGE_KEYS.CONVERSATION_ID ∧
    (saveState jsonPlatform none
        (loadState jsonPlatform sampleClock configDefaults
          (saveState jsonPlatform none editedWorld).storage)).storage.getItem
            CONFIG.STORAGE_KEYS.TEMPERATURE =
      (saveState jsonPlatform none editedWorld).storage.getItem CONFIG.STORAGE_KEYS.TEMPERATURE ∧
    (saveState jsonPlatform none
        (loadState jsonPlatform sampleClock configDefaults
          (saveState jsonPlatform none editedWorld).storage)).storage.getItem
            CONFIG.STORAGE_KEYS.USE_STREAMING =
      (saveState jsonPlatform none editedWorld).storage.getItem CONFIG.STORAGE_KEYS.USE_STREAMING ∧
    (saveState jsonPlatform none
        (loadState jsonPlatform sampleClock configDefaults
          (saveState jsonPlatform none editedWorld).storage)).storage.getItem
            CONFIG.STORAGE_KEYS.CHAT_HISTORY =
      (saveState jsonPlatform none editedWorld).storage.getItem CONFIG.STORAGE_KEYS.CHAT_HISTORY :=
  have h := persistence_round_trip jsonPlatform sampleClock configDefaults none none editedWorld
    editedHistory (Or.inl (by decide)) (Or.inl (by decide)) (Or.inl (by decide)) (by decide)
    (by rfl) (by rfl)
  ⟨by decide, h CONFIG.STORAGE_KEYS.SERVER_URL (by decide),
    h CONFIG.STORAGE_KEYS.CONVERSATION_ID (by decide),
    h CONFIG.STORAGE_KEYS.TEMPERATURE (by decide), h CONFIG.STORAGE_KEYS.USE_STREAMING (by decide),
    h CONFIG.STORAGE_KEYS.CHAT_HISTORY (by decide)⟩

/-- C9, the code at the failing inputs. Whatever value the stored history text parses to,
array or not, `UI.loadChatHistory` leaves it in `AppState.messages`. -/
theorem loadChatHistory_assigns_parsed_value (P : Platform) (clock : Clock) (w : World)
    (saved : JSString) (v : JSValue)
    (hs : w.storage.getItem CONFIG.STORAGE_KEYS.CHAT_HISTORY = some saved)
    (hne : saved ≠ []) (hp : P.parse saved = .ok v) :
    (UI.loadChatHistory P clock w).app.messages = v := by
  obtain ⟨nodes, n, h⟩ := loadChatHistory_parsed P clock w saved v hs hne hp
  rw [h]


/-- Witness for C9: the stored text `null` leaves `AppState.messages` equal to `null`, not to
the empty list. -/
theorem loadChatHistory_null_witness :
    (UI.loadChatHistory samplePlatform sampleClock nullHistoryWorld).app.messages = JSValue.null :=
  loadChatHistory_assigns_parsed_value samplePlatform sampleClock nullHistoryWorld (utf16 "null")
    JSValue.null (by decide) (by decide) (by rfl)


/-- C10. Import success: when the file parses to a value whose `messages` is an array of
well-formed messages, `ChatApp.importHistory` leaves `AppState.messages` equal to exactly that
array; and when the file gives a non-empty string as `conversationId`, `AppState.conversationId`
equals it and the stored history is the serialised imported array. -/
theorem importHistory_replaces_history (P : Platform) (clock : Clock) (fileText : JSString)
    (w : World) (data : JSValue) (items : List JSValue)
    (hparse : P.parse fileText = .ok data)
    (hmessages : data.getProp (utf16 "messages") = .ok (JSValue.arr items))
    (hwf : ∀ m ∈ items, isWellFormedMessage m = true) :
    (ChatApp.importHistory P clock fileText w).app.messages = JSValue.arr items ∧
    (∀ s : JSString, s ≠ [] → data.getProp (utf16 "conversationId") = .ok (JSValue.str s) →
      (ChatApp.importHistory P clock fileText w).app.conversationId = JSValue.str s ∧
      (ChatApp.importHistory P clock fileText w).storage.getItem CONFIG.STORAGE_KEYS.CHAT_HISTORY =
        some (P.stringify (JSValue.arr items))) := by
  obtain ⟨nodes1, n1, h1⟩ := clearChat_eq P clock w
  obtain ⟨nodes2, n2, h2⟩ := forEachAddMessage_wellFormed P clock items
    { w with
      app := { w.app with messages := JSValue.arr [], conversationId := JSValue.str [] }
      ui := { w.ui with chatMessages := nodes1, conversationId := [] }
      storage := (w.storage.setItem CONFIG.STORAGE_KEYS.CHAT_HISTORY
        (P.stringify (JSValue.arr []))).removeItem CONFIG.STORAGE_KEYS.CONVERSATION_ID
      nextNode := n1 } hwf
  have hdata : ∃ fields, data = JSValue.obj fields := by
    cases data <;> simp [JSValue.getProp] at hmessages
    exact ⟨_, rfl⟩
  obtain ⟨fields, hd⟩ := hdata
  subst hd
  simp only [ChatApp.importHistory, hparse, hmessages, h1, Outcome.ok_andThen, h2]
  constructor
  · simp only [JSValue.getProp]
    by_cases ht : (lookupField (utf16 "conversationId") fields).truthy = true
    · simp only [ht, if_true]
      cases hs : JSValue.toJSString P (lookupField (utf16 "conversationId") fields) <;> rfl
    · simp only [ht]
      rfl
  · intro s hs hcid
    cases s with
    | nil => exact absurd rfl hs
    | cons a as =>
      simp only [hcid]
      refine ⟨rfl, ?_⟩
      simp only [JSValue.truthy, List.isEmpty_cons, Bool.not_false, if_true, JSValue.toJSString,
        Outcome.ok, UI.saveChatHistory]
      exact getItem_setItem_same _ _ _


/-- Witness for C10: the sample file of the specification, imported over an earlier
conversation, leaves one message with content `hi` and the conversation id `abc`. -/
theorem importHistory_replaces_history_witness :
    (ChatApp.importHistory samplePlatform sampleClock sampleImportText usedWorld).app.messages =
      JSValue.arr [JSValue.obj [(utf16 "type", JSValue.str (utf16 "user")),
                                (utf16 "content", JSValue.str (utf16 "hi"))]] ∧
    (ChatApp.importHistory samplePlatform sampleClock sampleImportText usedWorld).app.conversationId =
      JSValue.str (utf16 "abc") :=
  have h := importHistory_replaces_history samplePlatform sampleClock sampleImportText usedWorld
    sampleImportData
    [JSValue.obj [(utf16 "type", JSValue.str (utf16 "user")), (utf16 "content", JSValue.str (utf16 "hi"))]]
    (by rfl) (by rfl) (by intro m hm; simp only [List.mem_singleton] at hm; subst hm; rfl)
  ⟨h.1, (h.2 (utf16 "abc") (by decide) (by rfl)).1⟩

/-! ## Further facts about the same functions -/

/-- The round trip of an emptied conversation id field: the save after the load stores the
default of the page. -/
theorem round_trip_of_blank_conversation_id (P : Platform) (clock : Clock) (form : FormDefaults)
    (health1 health2 : Option Bool) (w : World) (hblank : w.ui.conversationId = []) :
    (saveState P health1 w).storage.getItem CONFIG.STORAGE_KEYS.CONVERSATION_ID = some [] ∧
    (saveState P health2
      (loadState P clock form (saveState P health1 w).storage)).storage.getItem
        CONFIG.STORAGE_KEYS.CONVERSATION_ID = some form.conversationId := by
  obtain ⟨_, a2, _⟩ := saveState_getItem P health1 w
  obtain ⟨_, b2, _⟩ := saveState_getItem P health2
    (loadState P clock form (saveState P health1 w).storage)
  obtain ⟨messages, nodes, n, h⟩ := loadChatHistory_frame P clock
    (freshWorld form (saveState P health1 w).storage)
  obtain ⟨_, _, _, c4, _⟩ := loadSettings_fields P
    (UI.loadChatHistory P clock (freshWorld form (saveState P health1 w).storage))
  rw [hblank] at a2
  refine ⟨a2, ?_⟩
  rw [b2]
  unfold loadState
  rw [c4, h]
  simp only []
  have : (freshWorld form (saveState P health1 w).storage).storage = (saveState P health1 w).storage := rfl
  rw [this, a2]
  rfl

/-- The round trip of an emptied temperature field: the save after the load stores the
default of the page. -/
theorem round_trip_of_blank_temperature (P : Platform) (clock : Clock) (form : FormDefaults)
    (health1 health2 : Option Bool) (w : World) (hblank : w.ui.temperature = []) :
    (saveState P health1 w).storage.getItem CONFIG.STORAGE_KEYS.TEMPERATURE = some [] ∧
    (saveState P health2
      (loadState P clock form (saveState P health1 w).storage)).storage.getItem
        CONFIG.STORAGE_KEYS.TEMPERATURE = some form.temperature := by
  obtain ⟨_, _, a3, _⟩ := saveState_getItem P health1 w
  obtain ⟨_, _, b3, _⟩ := saveState_getItem P health2
    (loadState P clock form (saveState P health1 w).storage)
  obtain ⟨messages, nodes, n, h⟩ := loadChatHistory_frame P clock
    (freshWorld form (saveState P health1 w).storage)
  obtain ⟨_, _, _, _, c5, _⟩ := loadSettings_fields P
    (UI.loadChatHistory P clock (freshWorld form (saveState P health1 w).storage))
  rw [hblank] at a3
  refine ⟨a3, ?_⟩
  rw [b3]
  unfold loadState
  rw [c5, h]
  simp only []
  have : (freshWorld form (saveState P health1 w).storage).storage = (saveState P health1 w).storage := rfl
  rw [this, a3]
  rfl

/-- The condition on the three text fields is forced: whenever the round trip leaves the five
keys as the first save wrote them, each text field is non-empty or equal to the default of
the page. -/
theorem round_trip_forces_fields (P : Platform) (clock : Clock) (form : FormDefaults)
    (health1 health2 : Option Bool) (w : World)
    (h : ∀ key ∈ storageKeys,
      (saveState P health2
        (loadState P clock form (saveState P health1 w).storage)).storage.getItem key =
      (saveState P health1 w).storage.getItem key) :
    (w.ui.serverUrl ≠ [] ∨ w.ui.serverUrl = form.serverUrl) ∧
    (w.ui.conversationId ≠ [] ∨ w.ui.conversationId = form.conversationId) ∧
    (w.ui.temperature ≠ [] ∨ w.ui.temperature = form.temperature) := by
  refine ⟨?_, ?_, ?_⟩
  · by_cases hb : w.ui.serverUrl = []
    · obtain ⟨h1, h2⟩ := round_trip_of_blank_server_url P clock form health1 health2 w hb
      have := h CONFIG.STORAGE_KEYS.SERVER_URL (by decide)
      rw [h1, h2] at this
      exact Or.inr (hb.trans (Option.some.inj this).symm)
    · exact Or.inl hb
  · by_cases hb : w.ui.conversationId = []
    · obtain ⟨h1, h2⟩ := round_trip_of_blank_conversation_id P clock form health1 health2 w hb
      have := h CONFIG.STORAGE_KEYS.CONVERSATION_ID (by decide)
      rw [h1, h2] at this
      exact Or.inr (hb.trans (Option.some.inj this).symm)
    · exact Or.inl hb
  · by_cases hb : w.ui.temperature = []
    · obtain ⟨h1, h2⟩ := round_trip_of_blank_temperature P clock form health1 health2 w hb
      have := h CONFIG.STORAGE_KEYS.TEMPERATURE (by decide)
      rw [h1, h2] at this
      exact Or.inr (hb.trans (Option.some.inj this).symm)
    · exact Or.inl hb

/-- `UI.saveSettings` leaves `AppState.serverUrl` equal to the server URL field. -/
theorem saveSettings_mirrors_server_url (P : Platform) (health : Option Bool) (w : World) :
    (UI.saveSettings P health w).app.serverUrl = (UI.saveSettings P health w).ui.serverUrl := by
  unfold UI.saveSettings
  by_cases h : (w.app.serverUrl != w.ui.serverUrl) = true
  · simp only [h, if_true]
    cases health <;> rfl
  · simp only [h]
    rfl

/-- `UI.loadSettings` keeps `AppState.serverUrl` equal to the server URL field. -/
theorem loadSettings_mirrors_server_url (P : Platform) (w : World)
    (h : w.app.serverUrl = w.ui.serverUrl) :
    (UI.loadSettings P w).app.serverUrl = (UI.loadSettings P w).ui.serverUrl := by
  unfold UI.loadSettings
  rcases w.storage.getItem CONFIG.STORAGE_KEYS.SERVER_URL with _ | _ | _ <;>
  rcases w.storage.getItem CONFIG.STORAGE_KEYS.CONVERSATION_ID with _ | _ | _ <;>
  rcases w.storage.getItem CONFIG.STORAGE_KEYS.TEMPERATURE with _ | _ | _ <;>
  rcases w.storage.getItem CONFIG.STORAGE_KEYS.USE_STREAMING with _ | _ <;>
  first | exact h | rfl

/-- Saving a fresh page stores the server URL of its state, the default of `config.js`, exactly
when the server URL field of the page shows that default. -/
theorem fresh_page_saves_default_url_iff (P : Platform) (health : Option Bool)
    (form : FormDefaults) (storage : LocalStorage) :
    (saveState P health (freshWorld form storage)).storage.getItem CONFIG.STORAGE_KEYS.SERVER_URL =
        some (freshWorld form storage).app.serverUrl ↔
      form.serverUrl = CONFIG.DEFAULT_SERVER_URL := by
  obtain ⟨a1, _⟩ := saveState_getItem P health (freshWorld form storage)
  rw [a1]
  exact ⟨fun h => Option.some.inj h, fun h => congrArg some h⟩

/-- The computed JSON functions on the sample import file of the specification: the text
parses to the value and the value is written as the text. -/
theorem jsonPlatform_sample_import :
    jsonPlatform.parse sampleImportText = .ok sampleImportData ∧
    jsonPlatform.stringify sampleImportData = sampleImportText :=
  ⟨by rfl, by decide⟩

/-- The computed JSON functions on texts with white space, escapes, a repeated key and keys
that are array indices, and on texts that are not JSON. -/
theorem jsonPlatform_texts :
    jsonPlatform.parse (utf16 " [ ] ") = .ok (JSValue.arr []) ∧
    jsonPlatform.parse (utf16 "null") = .ok JSValue.null ∧
    jsonPlatform.parse (utf16 "\"a\\u00e9\\n\\/\"") = .ok (JSValue.str [97, 233, 10, 47]) ∧
    jsonPlatform.stringify (JSValue.str [8, 31, 34, 92, 127, 55357, 56832, 56832]) =
      utf16 "\"\\b\\u001f\\\"\\\\\x7f😀\\ude00\"" ∧
    jsonPlatform.stringify (JSValue.arr [JSValue.undefined, JSValue.num (2 ^ 63),
        JSValue.obj [(utf16 "a", JSValue.undefined), (utf16 "b", JSValue.bool true)]]) =
      utf16 "[null,0,\x7b\"b\":true\x7d]" ∧
    (jsonPlatform.parse (utf16 "\x7b\"b\":1,\"10\":2,\"2\":3,\"b\":-4\x7d")).map jsonPlatform.stringify =
      .ok (utf16 "\x7b\"2\":3,\"10\":2,\"b\":-4\x7d") ∧
    (jsonPlatform.parse []).toOption = none ∧
    (jsonPlatform.parse (utf16 "[1,]")).toOption = none ∧
    (jsonPlatform.parse (utf16 "[] []")).toOption = none ∧
    (jsonPlatform.parse (utf16 "undefined")).toOption = none :=
  ⟨by rfl, by rfl, by rfl, by decide, by decide, by rfl, by rfl, by rfl, by rfl, by rfl⟩

set_option maxRecDepth 100000 in
/-- The history the edited session leaves, its JSON text, and the value that text parses
to. -/
theorem editedWorld_history :
    editedWorld.app.messages = editedHistory ∧
    jsonPlatform.stringify editedHistory = editedHistoryText ∧
    jsonPlatform.parse editedHistoryText = .ok editedHistory :=
  ⟨by rfl, by decide, by rfl⟩

/-- Without a live accumulator `UI.finishStreamingMessage` changes nothing. -/
theorem finishStreamingMessage_without_stream (P : Platform) (clock : Clock) (w : World)
    (hnone : w.app.currentStreamingMessage = none) :
    UI.finishStreamingMessage P clock w = Outcome.ok w := by
  simp only [UI.finishStreamingMessage, hnone]

/-- A stored history text that the platform rejects, or no stored text, leaves the state as it
was. -/
theorem loadChatHistory_absent_or_rejected (P : Platform) (clock : Clock) (w : World)
    (h : w.storage.getItem CONFIG.STORAGE_KEYS.CHAT_HISTORY = none ∨
      ∃ saved e, w.storage.getItem CONFIG.STORAGE_KEYS.CHAT_HISTORY = some saved ∧
        P.parse saved = .error e) :
    UI.loadChatHistory P clock w = w := by
  rcases h with h | ⟨saved, e, hs, hp⟩
  · simp only [UI.loadChatHistory, h]
  · cases saved with
    | nil => simp only [UI.loadChatHistory, hs]
    | cons c cs => simp only [UI.loadChatHistory, hs, hp]

/-- With the marker followed by a space, the error carries exactly the text after it. -/
theorem sendStreamingMessage_marker_with_space (P : Platform) (startClock endClock : Clock)
    (message : JSString) (w : World) :
    (Chat.sendStreamingMessage P startClock endClock
      (.response true 200 (utf16 "OK") sampleErrorChunks) message w).thrown =
      some (JSError.ofMessage (utf16 "boom")) := by
  rfl

/-! ## Lemmas on the decoder and on text without a line feed -/

theorem Utf8Decoder.start_consistent (byte : Nat) : (Utf8Decoder.start byte).1.Consistent := by
  unfold Utf8Decoder.start Utf8Decoder.Consistent
  split
  · left; rfl
  · split
    · right; simp only; omega
    · split
      · right
        simp only
        refine ⟨by split <;> omega, by split <;> omega, ?_⟩
        by_cases h : byte = 224
        · right; simp [h]
        · left; omega
      · split
        · right
          simp only
          refine ⟨by split <;> omega, by split <;> omega, ?_⟩
          by_cases h : byte = 240
          · right; simp [h]
          · left; omega
        · left; rfl

theorem Utf8Decoder.start_no_lf (byte : Nat) (hb : byte ≠ 10) : 10 ∉ (Utf8Decoder.start byte).2 := by
  unfold Utf8Decoder.start
  split
  · simp; omega
  · split
    · simp
    · split
      · simp
      · split <;> simp

theorem Utf8Decoder.handle_consistent (d : Utf8Decoder) (byte : Nat) (hd : d.Consistent) :
    (d.handle byte).1.Consistent := by
  unfold Utf8Decoder.handle
  split
  · exact Utf8Decoder.start_consistent byte
  · rename_i hn
    split
    · exact Utf8Decoder.start_consistent byte
    · rename_i hr
      simp only
      split
      · left; rfl
      · rename_i hs
        right
        simp only [Utf8Decoder.Consistent] at hd
        rcases hd with h | ⟨h1, h2, h3⟩
        · exact absurd h hn
        · refine ⟨le_refl _, le_refl _, Or.inl ?_⟩
          show 1 ≤ d.codePoint * 64 + byte % 64
          rcases h3 with h3 | ⟨h3, _⟩
          · omega
          · omega

theorem Utf8Decoder.handle_no_lf (d : Utf8Decoder) (byte : Nat) (hd : d.Consistent)
    (hb : byte ≠ 10) : 10 ∉ (d.handle byte).2 := by
  unfold Utf8Decoder.handle
  split
  · exact Utf8Decoder.start_no_lf byte hb
  · rename_i hn
    split
    · simp only [List.mem_cons, not_or]
      exact ⟨by omega, Utf8Decoder.start_no_lf byte hb⟩
    · rename_i hr
      simp only
      split
      · rename_i hs
        simp only [Utf8Decoder.Consistent] at hd
        rcases hd with h | ⟨h1, h2, h3⟩
        · exact absurd h hn
        · rcases h3 with h3 | ⟨_, h3⟩
          · simp; omega
          · omega
      · simp

theorem codeUnits_no_lf (scalar : Nat) (h : scalar ≠ 10) : 10 ∉ codeUnits scalar := by
  unfold codeUnits
  split
  · simp; omega
  · simp; omega

theorem serialize_no_lf (bomSeen : Bool) (scalars : List Nat) (h : 10 ∉ scalars) :
    10 ∉ (TextDecoder.serialize bomSeen scalars).2 := by
  induction scalars generalizing bomSeen with
  | nil => simp [TextDecoder.serialize]
  | cons x xs ih =>
    have hx : x ≠ 10 := fun e => h (by simp [e])
    have hxs : 10 ∉ xs := fun e => h (by simp [e])
    unfold TextDecoder.serialize
    split
    · exact ih true hxs
    · simp only [List.mem_append, not_or]
      exact ⟨codeUnits_no_lf x hx, ih true hxs⟩

theorem decode_consistent (d : TextDecoder) (bytes : List Nat) (hd : d.utf8.Consistent) :
    (d.decode bytes).1.utf8.Consistent := by
  induction bytes generalizing d with
  | nil => exact hd
  | cons b bs ih =>
    rw [decode_cons]
    exact ih (d.step b).1 (Utf8Decoder.handle_consistent d.utf8 b hd)

theorem decode_no_lf (d : TextDecoder) (bytes : List Nat) (hd : d.utf8.Consistent)
    (hb : 10 ∉ bytes) : 10 ∉ (d.decode bytes).2 := by
  induction bytes generalizing d with
  | nil => simp [TextDecoder.decode]
  | cons b bs ih =>
    have hb1 : b ≠ 10 := fun e => hb (by simp [e])
    have hbs : 10 ∉ bs := fun e => hb (by simp [e])
    rw [decode_cons]
    simp only [List.mem_append, not_or]
    refine ⟨?_, ih (d.step b).1 (Utf8Decoder.handle_consistent d.utf8 b hd) hbs⟩
    exact serialize_no_lf _ _ (Utf8Decoder.handle_no_lf d.utf8 b hd hb1)

theorem completeLines_append_no_lf (s t : JSString) (h : 10 ∉ t) :
    completeLines (s ++ t) = completeLines s := by
  obtain ⟨q, qs, hq⟩ := splitNewline_eq_cons s
  have hmem : (splitNewline s).getLastD [] ∈ splitNewline s := by
    rw [hq, List.getLastD_cons]
    exact List.getLastD_mem_cons _ _
  have hlast := splitNewline_pieces_no_lf s _ hmem
  have hno : 10 ∉ (splitNewline s).getLastD [] ++ t := by
    simp only [List.mem_append, not_or]
    exact ⟨hlast, h⟩
  rw [completeLines_append]
  have : completeLines ((splitNewline s).getLastD [] ++ t) = [] := by
    unfold completeLines
    rw [splitNewline_of_no_lf _ hno]
    rfl
  rw [this, List.append_nil]

theorem responseText_unterminated (chunks extended : List (List Nat)) (tail : List Nat)
    (hext : extended.flatten = chunks.flatten ++ tail) (htail : 10 ∉ tail) :
    completeLines (responseText extended) = completeLines (responseText chunks) := by
  unfold responseText
  rw [hext, decode_append]
  exact completeLines_append_no_lf _ _
    (decode_no_lf _ _ (decode_consistent _ _ (Or.inl rfl)) htail)


/-! ## Lemmas on what the handlers leave unchanged -/

theorem updateStreamingMessage_frame (chunk : JSString) (w : World) :
    ∃ cur nodes, UI.updateStreamingMessage chunk w =
      { w with
        app := { w.app with currentStreamingMessage := cur }
        ui := { w.ui with chatMessages := nodes } } := by
  cases h : w.app.currentStreamingMessage with
  | none => exact ⟨none, w.ui.chatMessages, by simp only [UI.updateStreamingMessage, h]; rw [← h]⟩
  | some acc => exact ⟨_, _, updateStreamingMessage_live chunk w acc h⟩

theorem processLines_frame (lines : List JSString) (w : World) :
    ∃ cur nodes, (Chat.processLines lines w).world =
      { w with
        app := { w.app with currentStreamingMessage := cur }
        ui := { w.ui with chatMessages := nodes } } := by
  induction lines generalizing w with
  | nil => exact ⟨w.app.currentStreamingMessage, w.ui.chatMessages, rfl⟩
  | cons line rest ih =>
    by_cases hd : jsStartsWith (utf16 "data: ") line = true
    · by_cases he : jsStartsWith (utf16 "[ERROR]") (List.drop 6 line) = true
      · refine ⟨w.app.currentStreamingMessage, w.ui.chatMessages, ?_⟩
        simp only [Chat.processLines, hd, he, if_true]
        rfl
      · by_cases hc : (jsTrim (List.drop 6 line)).isEmpty = true
        · obtain ⟨cur, nodes, h⟩ := ih w
          refine ⟨cur, nodes, ?_⟩
          simp only [Chat.processLines, hd, he, hc, if_true]
          simpa using h
        · obtain ⟨cur1, nodes1, h1⟩ := updateStreamingMessage_frame (List.drop 6 line) w
          obtain ⟨cur2, nodes2, h2⟩ := ih (UI.updateStreamingMessage (List.drop 6 line) w)
          refine ⟨cur2, nodes2, ?_⟩
          simp only [Chat.processLines, hd, he, hc, if_true]
          simp only [Bool.not_false, if_true, Bool.false_eq_true, if_false]
          rw [h2, h1]
    · obtain ⟨cur, nodes, h⟩ := ih w
      refine ⟨cur, nodes, ?_⟩
      simp only [Chat.processLines, hd]
      simpa using h

theorem readLoop_frame (chunks : List (List Nat)) (decoder : TextDecoder) (buffer : JSString)
    (w : World) :
    ∃ cur nodes, (Chat.readLoop chunks decoder buffer w).world =
      { w with
        app := { w.app with currentStreamingMessage := cur }
        ui := { w.ui with chatMessages := nodes } } := by
  induction chunks generalizing decoder buffer w with
  | nil => exact ⟨w.app.currentStreamingMessage, w.ui.chatMessages, rfl⟩
  | cons value rest ih =>
    simp only [Chat.readLoop]
    obtain ⟨cur1, nodes1, h1⟩ := processLines_frame
      (splitNewline (buffer ++ (decoder.decode value).2)).dropLast w
    cases ht : (Chat.processLines (splitNewline (buffer ++ (decoder.decode value).2)).dropLast w).thrown with
    | some e =>
      refine ⟨cur1, nodes1, ?_⟩
      simp only [Outcome.andThen, ht]
      exact h1
    | none =>
      obtain ⟨cur2, nodes2, h2⟩ := ih (decoder.decode value).1
        ((splitNewline (buffer ++ (decoder.decode value).2)).getLastD [])
        (Chat.processLines (splitNewline (buffer ++ (decoder.decode value).2)).dropLast w).world
      refine ⟨cur2, nodes2, ?_⟩
      simp only [Outcome.andThen, ht]
      rw [h2, h1]



theorem addMessage_saved_cases (P : Platform) (clock : Clock) (type content time : JSValue)
    (w : World) :
    ((UI.addMessage P clock type content time true w).thrown ≠ none ∧
      (UI.addMessage P clock type content time true w).world.app = w.app ∧
      (UI.addMessage P clock type content time true w).world.storage = w.storage ∧
      (UI.addMessage P clock type content time true w).world.ui.messageInput = w.ui.messageInput) ∨
    ((UI.addMessage P clock type content time true w).thrown = none ∧
      ∃ messages,
        (UI.addMessage P clock type content time true w).world.app =
          { w.app with messages := messages } ∧
        (UI.addMessage P clock type content time true w).world.storage =
          w.storage.setItem CONFIG.STORAGE_KEYS.CHAT_HISTORY (P.stringify messages) ∧
        (UI.addMessage P clock type content time true w).world.ui.messageInput =
          w.ui.messageInput) := by
  cases hT : JSValue.toJSString P type with
  | error e =>
    left
    simp only [UI.addMessage, hT]
    exact ⟨by simp [Outcome.throw], rfl, rfl, rfl⟩
  | ok typeText =>
    cases hTime : JSValue.toJSString P (if time.truthy then time else JSValue.str clock.time) with
    | error e =>
      left
      cases content <;> simp only [UI.addMessage, hT, hTime] <;>
        exact ⟨by simp [Outcome.throw], rfl, rfl, rfl⟩
    | ok timeText =>
      cases content with
      | str text =>
        cases hm : w.app.messages with
        | arr items =>
          right
          simp only [UI.addMessage, hT, hTime, hm, if_true]
          exact ⟨rfl, _, rfl, rfl, rfl⟩
        | _ =>
          left
          simp only [UI.addMessage, hT, hTime, hm, if_true]
          exact ⟨by simp [Outcome.throw], rfl, rfl, rfl⟩
      | _ =>
        left
        simp only [UI.addMessage, hT]
        exact ⟨by simp [Outcome.throw], rfl, rfl, rfl⟩

theorem historyStep_refl (P : Platform) (w : World) : historyStep P w w := Or.inl ⟨rfl, rfl⟩

theorem historyStep_of_eq (P : Platform) (w after : World)
    (hs : after.storage = w.storage) (hm : after.app.messages = w.app.messages) :
    historyStep P w after := Or.inl ⟨by rw [hs], hm⟩

theorem historyStep_trans (P : Platform) (w mid after : World)
    (h1 : historyStep P w mid) (h2 : historyStep P mid after) : historyStep P w after := by
  rcases h2 with ⟨hs2, hm2⟩ | h2
  · rcases h1 with ⟨hs1, hm1⟩ | h1
    · exact Or.inl ⟨hs2.trans hs1, hm2.trans hm1⟩
    · exact Or.inr (by rw [hs2, hm2]; exact h1)
  · exact Or.inr h2

theorem addMessage_saved_frame (P : Platform) (clock : Clock) (type content time : JSValue)
    (w : World) :
    (UI.addMessage P clock type content time true w).world.app.conversationId =
      w.app.conversationId ∧
    (UI.addMessage P clock type content time true w).world.app.useStreaming = w.app.useStreaming ∧
    (UI.addMessage P clock type content time true w).world.app.isConnected = w.app.isConnected ∧
    historyStep P w (UI.addMessage P clock type content time true w).world := by
  rcases addMessage_saved_cases P clock type content time w with ⟨_, ha, hs, _⟩ | ⟨_, m, ha, hs, _⟩
  · exact ⟨by rw [ha], by rw [ha], by rw [ha], historyStep_of_eq P _ _ hs (by rw [ha])⟩
  · refine ⟨by rw [ha], by rw [ha], by rw [ha], Or.inr ?_⟩
    rw [hs, ha]
    exact getItem_setItem_same _ _ _

theorem finishStreamingMessage_frame (P : Platform) (clock : Clock) (w : World) :
    (UI.finishStreamingMessage P clock w).world.app.conversationId = w.app.conversationId ∧
    historyStep P w (UI.finishStreamingMessage P clock w).world := by
  cases hc : w.app.currentStreamingMessage with
  | none =>
    simp only [UI.finishStreamingMessage, hc]
    exact ⟨rfl, historyStep_refl P w⟩
  | some acc =>
    cases hm : w.app.messages with
    | arr items =>
      simp only [UI.finishStreamingMessage, hc, UI.setChatMessages, hm]
      exact ⟨rfl, Or.inr (getItem_setItem_same _ _ _)⟩
    | _ =>
      simp only [UI.finishStreamingMessage, hc, UI.setChatMessages, hm]
      exact ⟨rfl, Or.inl ⟨rfl, rfl⟩⟩

theorem sendStreamingMessage_frame (P : Platform) (startClock endClock : Clock)
    (reply : StreamReply) (message : JSString) (w : World) :
    (Chat.sendStreamingMessage P startClock endClock reply message w).world.app.conversationId =
      w.app.conversationId ∧
    historyStep P w (Chat.sendStreamingMessage P startClock endClock reply message w).world := by
  have hcatch : ∀ (o : Outcome), o.world.app.conversationId = w.app.conversationId →
      historyStep P w o.world →
      (match o.thrown with
        | none => o
        | some e =>
          match o.world.app.currentStreamingMessage with
          | some acc =>
            Outcome.throw
              { UI.setChatMessages (UI.removeNode acc.element o.world.ui.chatMessages) o.world with
                app := { (UI.setChatMessages (UI.removeNode acc.element o.world.ui.chatMessages)
                  o.world).app with currentStreamingMessage := none } } e
          | none => Outcome.throw o.world e).world.app.conversationId = w.app.conversationId ∧
      historyStep P w
        (match o.thrown with
          | none => o
          | some e =>
            match o.world.app.currentStreamingMessage with
            | some acc =>
              Outcome.throw
                { UI.setChatMessages (UI.removeNode acc.element o.world.ui.chatMessages) o.world with
                  app := { (UI.setChatMessages (UI.removeNode acc.element o.world.ui.chatMessages)
                    o.world).app with currentStreamingMessage := none } } e
            | none => Outcome.throw o.world e).world := by
    intro o h1 h2
    cases o.thrown with
    | none => exact ⟨h1, h2⟩
    | some e =>
      cases o.world.app.currentStreamingMessage with
      | none => exact ⟨h1, h2⟩
      | some acc =>
        refine ⟨h1, historyStep_trans P w o.world _ h2 (Or.inl ⟨rfl, rfl⟩)⟩
  unfold Chat.sendStreamingMessage
  apply hcatch
  · cases reply with
    | failed e => rfl
    | response ok status statusText chunks =>
      cases ok with
      | false => rfl
      | true =>
        simp only [Bool.not_true, Bool.false_eq_true, if_false]
        obtain ⟨cur, nodes, h⟩ := readLoop_frame chunks TextDecoder.fresh []
          (UI.createStreamingMessage startClock
            (Chat.logRequest (w.app.serverUrl ++ CONFIG.ENDPOINTS.CHAT_STREAM)
              (some (P.stringify (Chat.requestBody message w))) w))
        cases ht : (Chat.readLoop chunks TextDecoder.fresh []
          (UI.createStreamingMessage startClock
            (Chat.logRequest (w.app.serverUrl ++ CONFIG.ENDPOINTS.CHAT_STREAM)
              (some (P.stringify (Chat.requestBody message w))) w))).thrown with
        | some e =>
          simp only [Outcome.andThen, ht]
          rw [h]
          rfl
        | none =>
          simp only [Outcome.andThen, ht]
          rw [(finishStreamingMessage_frame P endClock _).1, h]
          rfl
  · cases reply with
    | failed e => exact Or.inl ⟨rfl, rfl⟩
    | response ok status statusText chunks =>
      cases ok with
      | false => exact Or.inl ⟨rfl, rfl⟩
      | true =>
        simp only [Bool.not_true, Bool.false_eq_true, if_false]
        obtain ⟨cur, nodes, h⟩ := readLoop_frame chunks TextDecoder.fresh []
          (UI.createStreamingMessage startClock
            (Chat.logRequest (w.app.serverUrl ++ CONFIG.ENDPOINTS.CHAT_STREAM)
              (some (P.stringify (Chat.requestBody message w))) w))
        have hloop : historyStep P w (Chat.readLoop chunks TextDecoder.fresh []
          (UI.createStreamingMessage startClock
            (Chat.logRequest (w.app.serverUrl ++ CONFIG.ENDPOINTS.CHAT_STREAM)
              (some (P.stringify (Chat.requestBody message w))) w))).world := by
          rw [h]
          exact Or.inl ⟨rfl, rfl⟩
        cases ht : (Chat.readLoop chunks TextDecoder.fresh []
          (UI.createStreamingMessage startClock
            (Chat.logRequest (w.app.serverUrl ++ CONFIG.ENDPOINTS.CHAT_STREAM)
              (some (P.stringify (Chat.requestBody message w))) w))).thrown with
        | some e =>
          simp only [Outcome.andThen, ht]
          exact hloop
        | none =>
          simp only [Outcome.andThen, ht]
          exact historyStep_trans P w _ _ hloop (finishStreamingMessage_frame P endClock _).2

theorem sendRegularMessage_frame (P : Platform) (clock : Clock) (reply : ChatReply)
    (message : JSString) (w : World) :
    ((Chat.sendRegularMessage P clock reply message w).world.app.conversationId =
        w.app.conversationId ∨
      ∃ status statusText data newId,
        reply = ChatReply.response true status statusText (.ok data) ∧
        data.getProp (utf16 "conversation_id") = .ok newId ∧
        (Chat.sendRegularMessage P clock reply message w).world.app.conversationId = newId) ∧
    historyStep P w (Chat.sendRegularMessage P clock reply message w).world := by
  have hwrap : ∀ (o : Outcome) (Q : JSValue → Prop), Q o.world.app.conversationId →
      historyStep P w o.world →
      Q (match o.thrown with
        | none => o
        | some e => Outcome.throw (UI.hideTypingIndicator o.world) e).world.app.conversationId ∧
      historyStep P w
        (match o.thrown with
          | none => o
          | some e => Outcome.throw (UI.hideTypingIndicator o.world) e).world := by
    intro o Q h1 h2
    cases o.thrown with
    | none => exact ⟨h1, h2⟩
    | some e => exact ⟨h1, historyStep_trans P w o.world _ h2 (Or.inl ⟨rfl, rfl⟩)⟩
  unfold Chat.sendRegularMessage
  refine hwrap _ (fun v => v = w.app.conversationId ∨
      ∃ status statusText data newId,
        reply = ChatReply.response true status statusText (.ok data) ∧
        data.getProp (utf16 "conversation_id") = .ok newId ∧ v = newId) ?_ ?_
  · cases reply with
    | failed e => exact Or.inl rfl
    | response ok status statusText json =>
      cases ok with
      | false => exact Or.inl rfl
      | true =>
        cases json with
        | error e => exact Or.inl rfl
        | ok data =>
          simp only [Bool.not_true, Bool.false_eq_true, if_false]
          cases hr : data.getProp (utf16 "response") with
          | error e => exact Or.inl rfl
          | ok response =>
            simp only []
            obtain ⟨hcid, _, _, _⟩ := addMessage_saved_frame P clock (JSValue.str (utf16 "ai")) response
              JSValue.null (UI.hideTypingIndicator
                (Chat.logRequest ((UI.showTypingIndicator w).app.serverUrl ++ CONFIG.ENDPOINTS.CHAT)
                  (some (P.stringify (Chat.requestBody message (UI.showTypingIndicator w))))
                  (UI.showTypingIndicator w)))
            cases ht : (UI.addMessage P clock (JSValue.str (utf16 "ai")) response
              JSValue.null true (UI.hideTypingIndicator
                (Chat.logRequest ((UI.showTypingIndicator w).app.serverUrl ++ CONFIG.ENDPOINTS.CHAT)
                  (some (P.stringify (Chat.requestBody message (UI.showTypingIndicator w))))
                  (UI.showTypingIndicator w)))).thrown with
            | some e =>
              simp only [Outcome.andThen, ht]
              exact Or.inl hcid
            | none =>
              simp only [Outcome.andThen, ht]
              cases hid : data.getProp (utf16 "conversation_id") with
              | error e => exact Or.inl hcid
              | ok newId =>
                simp only []
                split
                · right
                  refine ⟨status, statusText, data, newId, rfl, hid, ?_⟩
                  cases JSValue.toJSString P newId <;> rfl
                · exact Or.inl hcid
  · cases reply with
    | failed e => exact Or.inl ⟨rfl, rfl⟩
    | response ok status statusText json =>
      cases ok with
      | false => exact Or.inl ⟨rfl, rfl⟩
      | true =>
        cases json with
        | error e => exact Or.inl ⟨rfl, rfl⟩
        | ok data =>
          simp only [Bool.not_true, Bool.false_eq_true, if_false]
          cases hr : data.getProp (utf16 "response") with
          | error e => exact Or.inl ⟨rfl, rfl⟩
          | ok response =>
            simp only []
            obtain ⟨_, _, _, hh⟩ := addMessage_saved_frame P clock (JSValue.str (utf16 "ai")) response
              JSValue.null (UI.hideTypingIndicator
                (Chat.logRequest ((UI.showTypingIndicator w).app.serverUrl ++ CONFIG.ENDPOINTS.CHAT)
                  (some (P.stringify (Chat.requestBody message (UI.showTypingIndicator w))))
                  (UI.showTypingIndicator w)))
            have hh2 : historyStep P w (UI.addMessage P clock (JSValue.str (utf16 "ai")) response
              JSValue.null true (UI.hideTypingIndicator
                (Chat.logRequest ((UI.showTypingIndicator w).app.serverUrl ++ CONFIG.ENDPOINTS.CHAT)
                  (some (P.stringify (Chat.requestBody message (UI.showTypingIndicator w))))
                  (UI.showTypingIndicator w)))).world :=
              historyStep_trans P w _ _ (Or.inl ⟨rfl, rfl⟩) hh
            cases ht : (UI.addMessage P clock (JSValue.str (utf16 "ai")) response
              JSValue.null true (UI.hideTypingIndicator
                (Chat.logRequest ((UI.showTypingIndicator w).app.serverUrl ++ CONFIG.ENDPOINTS.CHAT)
                  (some (P.stringify (Chat.requestBody message (UI.showTypingIndicator w))))
                  (UI.showTypingIndicator w)))).thrown with
            | some e =>
              simp only [Outcome.andThen, ht]
              exact hh2
            | none =>
              simp only [Outcome.andThen, ht]
              cases hid : data.getProp (utf16 "conversation_id") with
              | error e => exact hh2
              | ok newId =>
                simp only []
                split
                · refine historyStep_trans P w _ _ hh2 ?_
                  cases JSValue.toJSString P newId with
                  | error e => exact Or.inl ⟨rfl, rfl⟩
                  | ok text =>
                    exact Or.inl ⟨getItem_setItem_ne _ _ _ _ (by decide), rfl⟩
                · exact hh2

theorem sendMessage_frame (P : Platform) (userClock startClock endClock : Clock)
    (stream : StreamReply) (chat : ChatReply) (w : World) :
    ((Chat.sendMessage P userClock startClock endClock stream chat w).world.app.conversationId =
        w.app.conversationId ∨
      (Chat.sendMessage P userClock startClock endClock stream chat w).world.app.conversationId ∈
        serverSupplied (PageEvent.send userClock startClock endClock stream chat) w) ∧
    historyStep P w (Chat.sendMessage P userClock startClock endClock stream chat w).world := by
  unfold Chat.sendMessage
  by_cases hempty : (jsTrim w.ui.messageInput).isEmpty = true
  · simp only [hempty, if_true]
    exact ⟨Or.inl rfl, historyStep_refl P w⟩
  · by_cases hconn : w.app.isConnected = true
    · simp only [hempty, hconn, Bool.not_true, Bool.false_eq_true, if_false]
      obtain ⟨hcid, hus, _, hh⟩ := addMessage_saved_frame P userClock (JSValue.str (utf16 "user"))
        (JSValue.str (jsTrim w.ui.messageInput)) JSValue.null
        (UI.setInputDisabled true { w with ui := { w.ui with messageInput := [] } })
      have hh1 : historyStep P w (UI.addMessage P userClock (JSValue.str (utf16 "user"))
        (JSValue.str (jsTrim w.ui.messageInput)) JSValue.null true
        (UI.setInputDisabled true { w with ui := { w.ui with messageInput := [] } })).world :=
        historyStep_trans P w _ _ (Or.inl ⟨rfl, rfl⟩) hh
      cases ht : (UI.addMessage P userClock (JSValue.str (utf16 "user"))
        (JSValue.str (jsTrim w.ui.messageInput)) JSValue.null true
        (UI.setInputDisabled true { w with ui := { w.ui with messageInput := [] } })).thrown with
      | some e =>
        simp only [Outcome.andThen, ht]
        exact ⟨Or.inl hcid, hh1⟩
      | none =>
        simp only [Outcome.andThen, ht, Outcome.ok]
        have hshow : ∀ (o : Outcome),
            (UI.setInputDisabled false
              (match o.thrown with
                | some e => UI.showError e.message o.world
                | none => o.world)).app = o.world.app ∧
            (UI.setInputDisabled false
              (match o.thrown with
                | some e => UI.showError e.message o.world
                | none => o.world)).storage = o.world.storage := by
          intro o
          cases o.thrown <;> exact ⟨rfl, rfl⟩
        by_cases hstream : (UI.addMessage P userClock (JSValue.str (utf16 "user"))
          (JSValue.str (jsTrim w.ui.messageInput)) JSValue.null true
          (UI.setInputDisabled true { w with ui := { w.ui with messageInput := [] } })).world.app.useStreaming
            = true
        · simp only [hstream, if_true]
          obtain ⟨h1, h2⟩ := sendStreamingMessage_frame P startClock endClock stream
            (jsTrim w.ui.messageInput) (UI.addMessage P userClock (JSValue.str (utf16 "user"))
              (JSValue.str (jsTrim w.ui.messageInput)) JSValue.null true
              (UI.setInputDisabled true { w with ui := { w.ui with messageInput := [] } })).world
          obtain ⟨ha, hs⟩ := hshow (Chat.sendStreamingMessage P startClock endClock stream
            (jsTrim w.ui.messageInput) (UI.addMessage P userClock (JSValue.str (utf16 "user"))
              (JSValue.str (jsTrim w.ui.messageInput)) JSValue.null true
              (UI.setInputDisabled true { w with ui := { w.ui with messageInput := [] } })).world)
          refine ⟨Or.inl ?_, ?_⟩
          · exact (congrArg AppState.conversationId ha).trans (h1.trans hcid)
          · exact historyStep_trans P w _ _ (historyStep_trans P w _ _ hh1 h2)
              (historyStep_of_eq P _ _ hs (congrArg AppState.messages ha))
        · simp only [hstream]
          obtain ⟨h1, h2⟩ := sendRegularMessage_frame P endClock chat
            (jsTrim w.ui.messageInput) (UI.addMessage P userClock (JSValue.str (utf16 "user"))
              (JSValue.str (jsTrim w.ui.messageInput)) JSValue.null true
              (UI.setInputDisabled true { w with ui := { w.ui with messageInput := [] } })).world
          obtain ⟨ha, hs⟩ := hshow (Chat.sendRegularMessage P endClock chat
            (jsTrim w.ui.messageInput) (UI.addMessage P userClock (JSValue.str (utf16 "user"))
              (JSValue.str (jsTrim w.ui.messageInput)) JSValue.null true
              (UI.setInputDisabled true { w with ui := { w.ui with messageInput := [] } })).world)
          refine ⟨?_, ?_⟩
          · rcases h1 with h1 | ⟨status, statusText, data, newId, hchat, hid, h1⟩
            · left
              exact (congrArg AppState.conversationId ha).trans (h1.trans hcid)
            · right
              subst hchat
              have hus2 : w.app.useStreaming = false := by
                have hus3 : (UI.addMessage P userClock (JSValue.str (utf16 "user"))
                  (JSValue.str (jsTrim w.ui.messageInput)) JSValue.null true
                  (UI.setInputDisabled true
                    { w with ui := { w.ui with messageInput := [] } })).world.app.useStreaming =
                    w.app.useStreaming := hus
                rw [hus3] at hstream
                simpa using hstream
              have hmem : newId ∈ serverSupplied
                  (PageEvent.send userClock startClock endClock stream
                    (ChatReply.response true status statusText (Except.ok data))) w := by
                simp only [serverSupplied, hempty, hconn, hus2, hid]
                simp
              exact Eq.mpr (congrArg (fun v => v ∈ serverSupplied
                  (PageEvent.send userClock startClock endClock stream
                    (ChatReply.response true status statusText (Except.ok data))) w)
                ((congrArg AppState.conversationId ha).trans h1)) hmem
          · exact historyStep_trans P w _ _ (historyStep_trans P w _ _ hh1 h2)
              (historyStep_of_eq P _ _ hs (congrArg AppState.messages ha))
    · simp only [hempty, hconn, Bool.not_false, if_true, Bool.false_eq_true, if_false]
      exact ⟨Or.inl rfl, Or.inl ⟨rfl, rfl⟩⟩

theorem getItem_removeItem_ne (st : LocalStorage) (key other : JSString) (hne : key ≠ other) :
    (st.removeItem key).getItem other = st.getItem other := by
  induction st with
  | nil => rfl
  | cons kv rest ih =>
    obtain ⟨k, v⟩ := kv
    by_cases h : k = key
    · subst h
      have : (LocalStorage.removeItem ((k, v) :: rest) k) = LocalStorage.removeItem rest k := by
        simp [LocalStorage.removeItem, List.filter_cons]
      rw [this, ih]
      simp [LocalStorage.getItem, hne]
    · have : (LocalStorage.removeItem ((k, v) :: rest) key) =
          (k, v) :: LocalStorage.removeItem rest key := by
        simp [LocalStorage.removeItem, List.filter_cons, h]
      rw [this]
      by_cases h2 : k = other
      · simp [LocalStorage.getItem, h2]
      · simp only [LocalStorage.getItem, h2, if_false]
        exact ih

theorem importHistory_frame (P : Platform) (clock : Clock) (fileText : JSString) (w : World) :
    ((ChatApp.importHistory P clock fileText w).app.conversationId = w.app.conversationId ∨
      (ChatApp.importHistory P clock fileText w).app.conversationId = JSValue.str [] ∨
      (ChatApp.importHistory P clock fileText w).app.conversationId ∈
        clientSupplied P (PageEvent.importFile clock fileText) w) ∧
    ((ChatApp.importHistory P clock fileText w).storage.getItem CONFIG.STORAGE_KEYS.CHAT_HISTORY =
        w.storage.getItem CONFIG.STORAGE_KEYS.CHAT_HISTORY ∨
      (ChatApp.importHistory P clock fileText w).storage.getItem CONFIG.STORAGE_KEYS.CHAT_HISTORY =
        some (P.stringify (ChatApp.importHistory P clock fileText w).app.messages) ∨
      (ChatApp.importHistory P clock fileText w).storage.getItem CONFIG.STORAGE_KEYS.CHAT_HISTORY =
        some (P.stringify (JSValue.arr []))) := by
  cases hparse : P.parse fileText with
  | error e =>
    simp only [ChatApp.importHistory, hparse]
    exact ⟨Or.inl rfl, Or.inl rfl⟩
  | ok data =>
    cases hm : data.getProp (utf16 "messages") with
    | error e =>
      simp only [ChatApp.importHistory, hparse, hm]
      exact ⟨Or.inl rfl, Or.inl rfl⟩
    | ok messages =>
      cases messages with
      | arr items =>
        obtain ⟨nodes1, n1, h1⟩ := clearChat_eq P clock w
        simp only [ChatApp.importHistory, hparse, hm, h1, Outcome.ok_andThen]
        have hcleared : ∀ st : LocalStorage,
            st = (w.storage.setItem CONFIG.STORAGE_KEYS.CHAT_HISTORY
              (P.stringify (JSValue.arr []))).removeItem CONFIG.STORAGE_KEYS.CONVERSATION_ID →
            st.getItem CONFIG.STORAGE_KEYS.CHAT_HISTORY = some (P.stringify (JSValue.arr [])) := by
          intro st hst
          rw [hst, getItem_removeItem_ne _ _ _ (by decide), getItem_setItem_same]
        obtain ⟨nodes2, n2, h2⟩ := forEachAddMessage_world P clock items
          { w with
            app := { w.app with messages := JSValue.arr [], conversationId := JSValue.str [] }
            ui := { w.ui with chatMessages := nodes1, conversationId := [] }
            storage := (w.storage.setItem CONFIG.STORAGE_KEYS.CHAT_HISTORY
              (P.stringify (JSValue.arr []))).removeItem CONFIG.STORAGE_KEYS.CONVERSATION_ID
            nextNode := n1 }
        cases ht : (UI.forEachAddMessage P clock items
          { w with
            app := { w.app with messages := JSValue.arr [], conversationId := JSValue.str [] }
            ui := { w.ui with chatMessages := nodes1, conversationId := [] }
            storage := (w.storage.setItem CONFIG.STORAGE_KEYS.CHAT_HISTORY
              (P.stringify (JSValue.arr []))).removeItem CONFIG.STORAGE_KEYS.CONVERSATION_ID
            nextNode := n1 }).thrown with
        | some e =>
          simp only [Outcome.andThen, ht]
          rw [h2]
          exact ⟨Or.inr (Or.inl rfl), Or.inr (Or.inr (hcleared _ rfl))⟩
        | none =>
          simp only [Outcome.andThen, ht]
          rw [h2]
          cases hid : data.getProp (utf16 "conversationId") with
          | error e =>
            exact ⟨Or.inr (Or.inl rfl), Or.inr (Or.inr (hcleared _ rfl))⟩
          | ok newId =>
            simp only []
            cases htruthy : newId.truthy with
            | false =>
              simp only [Bool.false_eq_true, if_false]
              exact ⟨Or.inr (Or.inl rfl), Or.inr (Or.inl (getItem_setItem_same _ _ _))⟩
            | true =>
              simp only [if_true]
              have hmem : newId ∈ clientSupplied P (PageEvent.importFile clock fileText) w := by
                simp [clientSupplied, hparse, hid]
              cases hs : JSValue.toJSString P newId with
              | error e =>
                exact ⟨Or.inr (Or.inr hmem), Or.inr (Or.inr (hcleared _ rfl))⟩
              | ok text =>
                exact ⟨Or.inr (Or.inr hmem), Or.inr (Or.inl (getItem_setItem_same _ _ _))⟩
      | _ =>
        simp only [ChatApp.importHistory, hparse, hm]
        exact ⟨Or.inl rfl, Or.inl rfl⟩

theorem saveSettings_conversationId (P : Platform) (health : Option Bool) (w : World) :
    (UI.saveSettings P health w).app.conversationId = JSValue.str w.ui.conversationId := by
  unfold UI.saveSettings
  by_cases h : (w.app.serverUrl != w.ui.serverUrl) = true
  · simp only [h, if_true]
    cases health <;> rfl
  · simp only [h]
    rfl

theorem loadSettings_conversationId (P : Platform) (x : World) :
    (UI.loadSettings P x).app.conversationId =
      (match x.storage.getItem CONFIG.STORAGE_KEYS.CONVERSATION_ID with
        | some (c :: cs) => JSValue.str (c :: cs)
        | _ => x.app.conversationId) := by
  unfold UI.loadSettings
  rcases x.storage.getItem CONFIG.STORAGE_KEYS.SERVER_URL with _ | _ | _ <;>
  rcases x.storage.getItem CONFIG.STORAGE_KEYS.CONVERSATION_ID with _ | _ | _ <;>
  rcases x.storage.getItem CONFIG.STORAGE_KEYS.TEMPERATURE with _ | _ | _ <;>
  rcases x.storage.getItem CONFIG.STORAGE_KEYS.USE_STREAMING with _ | _ <;>
  rfl

theorem step_conversationId (P : Platform) (a : PageEvent) (w : World) :
    (step P a w).app.conversationId = w.app.conversationId ∨
    (step P a w).app.conversationId = JSValue.str [] ∨
    (step P a w).app.conversationId ∈ serverSupplied a w ∨
    (step P a w).app.conversationId ∈ clientSupplied P a w := by
  cases a with
  | typeMessage text => exact Or.inl rfl
  | editSettings serverUrl conversationId temperature useStreaming => exact Or.inl rfl
  | send userClock startClock endClock stream chat =>
    rcases (sendMessage_frame P userClock startClock endClock stream chat w).1 with h | h
    · exact Or.inl h
    · exact Or.inr (Or.inr (Or.inl h))
  | saveSettings health =>
    refine Or.inr (Or.inr (Or.inr ?_))
    simp only [step, saveSettings_conversationId, clientSupplied, List.mem_singleton]
  | loadSettings =>
    simp only [step, loadSettings_conversationId, clientSupplied]
    cases h : w.storage.getItem CONFIG.STORAGE_KEYS.CONVERSATION_ID with
    | none => exact Or.inl rfl
    | some stored =>
      cases stored with
      | nil => exact Or.inl rfl
      | cons c cs => exact Or.inr (Or.inr (Or.inr (by simp)))
  | loadChatHistory clock =>
    obtain ⟨messages, nodes, n, h⟩ := loadChatHistory_frame P clock w
    left
    simp only [step]
    rw [h]
  | clear clock confirmed =>
    cases confirmed with
    | false => exact Or.inl rfl
    | true =>
      obtain ⟨nodes, n, h⟩ := clearChat_eq P clock w
      refine Or.inr (Or.inl ?_)
      simp only [step, ChatApp.clearChat, if_true, h, Outcome.ok_andThen]
      rfl
  | importFile clock fileText =>
    rcases (importHistory_frame P clock fileText w).1 with h | h | h
    · exact Or.inl h
    · exact Or.inr (Or.inl h)
    · exact Or.inr (Or.inr (Or.inr h))
  | checkServer reply =>
    left
    cases reply <;> rfl
  | beginStream clock => exact Or.inl rfl
  | streamChunk chunk =>
    obtain ⟨cur, nodes, h⟩ := updateStreamingMessage_frame chunk w
    left
    simp only [step]
    rw [h]
  | endStream clock => exact Or.inl (finishStreamingMessage_frame P clock w).1

theorem saveSettings_history (P : Platform) (health : Option Bool) (w : World) :
    (UI.saveSettings P health w).storage.getItem CONFIG.STORAGE_KEYS.CHAT_HISTORY =
      w.storage.getItem CONFIG.STORAGE_KEYS.CHAT_HISTORY := by
  rw [(saveSettings_fields P health w).1, getItem_setItem_ne _ _ _ _ (by decide),
    getItem_setItem_ne _ _ _ _ (by decide), getItem_setItem_ne _ _ _ _ (by decide),
    getItem_setItem_ne _ _ _ _ (by decide)]

theorem step_history (P : Platform) (a : PageEvent) (w : World) :
    (step P a w).storage.getItem CONFIG.STORAGE_KEYS.CHAT_HISTORY =
      w.storage.getItem CONFIG.STORAGE_KEYS.CHAT_HISTORY ∨
    (step P a w).storage.getItem CONFIG.STORAGE_KEYS.CHAT_HISTORY =
      some (P.stringify (step P a w).app.messages) ∨
    (step P a w).storage.getItem CONFIG.STORAGE_KEYS.CHAT_HISTORY =
      some (P.stringify (JSValue.arr [])) := by
  have hof : ∀ after : World, historyStep P w after →
      after.storage.getItem CONFIG.STORAGE_KEYS.CHAT_HISTORY =
        w.storage.getItem CONFIG.STORAGE_KEYS.CHAT_HISTORY ∨
      after.storage.getItem CONFIG.STORAGE_KEYS.CHAT_HISTORY =
        some (P.stringify after.app.messages) ∨
      after.storage.getItem CONFIG.STORAGE_KEYS.CHAT_HISTORY =
        some (P.stringify (JSValue.arr [])) := by
    intro after h
    rcases h with ⟨h, _⟩ | h
    · exact Or.inl h
    · exact Or.inr (Or.inl h)
  cases a with
  | typeMessage text => exact Or.inl rfl
  | editSettings serverUrl conversationId temperature useStreaming => exact Or.inl rfl
  | send userClock startClock endClock stream chat =>
    exact hof _ (sendMessage_frame P userClock startClock endClock stream chat w).2
  | saveSettings health => exact Or.inl (saveSettings_history P health w)
  | loadSettings =>
    left
    simp only [step]
    rw [(loadSettings_fields P w).1]
  | loadChatHistory clock =>
    obtain ⟨messages, nodes, n, h⟩ := loadChatHistory_frame P clock w
    left
    simp only [step]
    rw [h]
  | clear clock confirmed =>
    cases confirmed with
    | false => exact Or.inl rfl
    | true =>
      obtain ⟨nodes, n, h⟩ := clearChat_eq P clock w
      refine Or.inr (Or.inr ?_)
      simp only [step, ChatApp.clearChat, if_true, h, Outcome.ok_andThen]
      show ((w.storage.setItem CONFIG.STORAGE_KEYS.CHAT_HISTORY
        (P.stringify (JSValue.arr []))).removeItem CONFIG.STORAGE_KEYS.CONVERSATION_ID).getItem
          CONFIG.STORAGE_KEYS.CHAT_HISTORY = _
      rw [getItem_removeItem_ne _ _ _ (by decide), getItem_setItem_same]
  | importFile clock fileText => exact (importHistory_frame P clock fileText w).2
  | checkServer reply =>
    left
    cases reply <;> rfl
  | beginStream clock => exact Or.inl rfl
  | streamChunk chunk =>
    obtain ⟨cur, nodes, h⟩ := updateStreamingMessage_frame chunk w
    left
    simp only [step]
    rw [h]
  | endStream clock => exact hof _ (finishStreamingMessage_frame P clock w).2

theorem run_conversationId (P : Platform) (actions : List PageEvent) (w : World) :
    (run P actions w).app.conversationId = w.app.conversationId ∨
    (run P actions w).app.conversationId = JSValue.str [] ∨
    (run P actions w).app.conversationId ∈ serverSuppliedAlong P actions w ∨
    (run P actions w).app.conversationId ∈ clientSuppliedAlong P actions w := by
  induction actions generalizing w with
  | nil => exact Or.inl rfl
  | cons a rest ih =>
    simp only [run, serverSuppliedAlong, clientSuppliedAlong, List.mem_append]
    rcases ih (step P a w) with h | h | h | h
    · rw [h]
      rcases step_conversationId P a w with h2 | h2 | h2 | h2
      · exact Or.inl h2
      · exact Or.inr (Or.inl h2)
      · exact Or.inr (Or.inr (Or.inl (Or.inl h2)))
      · exact Or.inr (Or.inr (Or.inr (Or.inl h2)))
    · exact Or.inr (Or.inl h)
    · exact Or.inr (Or.inr (Or.inl (Or.inr h)))
    · exact Or.inr (Or.inr (Or.inr (Or.inr h)))

theorem run_history (P : Platform) (actions : List PageEvent) (w : World) :
    (run P actions w).storage.getItem CONFIG.STORAGE_KEYS.CHAT_HISTORY =
      w.storage.getItem CONFIG.STORAGE_KEYS.CHAT_HISTORY ∨
    ∃ m ∈ JSValue.arr [] :: historiesAlong P actions w,
      (run P actions w).storage.getItem CONFIG.STORAGE_KEYS.CHAT_HISTORY = some (P.stringify m) := by
  induction actions generalizing w with
  | nil => exact Or.inl rfl
  | cons a rest ih =>
    simp only [run, historiesAlong]
    rcases ih (step P a w) with h | ⟨m, hm, h⟩
    · rw [h]
      rcases step_history P a w with h2 | h2 | h2
      · exact Or.inl h2
      · exact Or.inr ⟨_, by simp, h2⟩
      · exact Or.inr ⟨_, by simp, h2⟩
    · refine Or.inr ⟨m, ?_, h⟩
      simp only [List.mem_cons] at hm ⊢
      rcases hm with hm | hm
      · exact Or.inl hm
      · exact Or.inr (Or.inr hm)


/-! ## The claims, continued -/

/-- C11. Import rejection: when the file parses to a value that has no `messages` property or
whose `messages` is not an array, `ChatApp.importHistory` throws nothing to its caller and
leaves the world as it was except for one banner with the import error: `AppState` (history
and conversation id included) and the storage are unchanged. -/
theorem importHistory_rejects_non_array (P : Platform) (clock : Clock) (fileText : JSString)
    (w : World) (data : JSValue)
    (hparse : P.parse fileText = .ok data)
    (hno : ∀ items, data.getProp (utf16 "messages") ≠ .ok (JSValue.arr items)) :
    ChatApp.importHistory P clock fileText w =
      UI.showError (utf16 "Error al importar el historial. Verifica el formato del archivo.") w ∧
    (ChatApp.importHistory P clock fileText w).app = w.app ∧
    (ChatApp.importHistory P clock fileText w).storage = w.storage ∧
    (ChatApp.importHistory P clock fileText w).ui.chatMessages =
      w.ui.chatMessages ++ [DomNode.error (CONFIG.MESSAGES.ERROR_PREFIX ++
        utf16 "Error al importar el historial. Verifica el formato del archivo.")] := by
  have h : ChatApp.importHistory P clock fileText w =
      UI.showError (utf16 "Error al importar el historial. Verifica el formato del archivo.") w := by
    simp only [ChatApp.importHistory, hparse]
    cases hm : data.getProp (utf16 "messages") with
    | error e => rfl
    | ok messages =>
      cases messages with
      | arr items => exact absurd hm (hno items)
      | _ => rfl
  rw [h]
  exact ⟨rfl, rfl, rfl, rfl⟩


/-- Witness for C11: a file holding the JSON array `[]`, imported over an earlier
conversation. -/
theorem importHistory_rejects_non_array_witness :
    (ChatApp.importHistory samplePlatform sampleClock (utf16 "[]") usedWorld).app = usedWorld.app ∧
    (ChatApp.importHistory samplePlatform sampleClock (utf16 "[]") usedWorld).storage =
      usedWorld.storage :=
  have h := importHistory_rejects_non_array samplePlatform sampleClock (utf16 "[]") usedWorld
    (JSValue.arr []) (by rfl) (by intro items hc; cases hc)
  ⟨h.2.1, h.2.2.1⟩


/-- C12, counterexample. The user types `my-id` into the conversation id field and the change
is saved: `AppState.conversationId` is `my-id`, although no request was issued and the server
supplied no value. -/
theorem typed_conversation_id_is_adopted :
    (run samplePlatform typedIdSession sampleWorld).app.conversationId =
      JSValue.str (utf16 "my-id") ∧
    (run samplePlatform typedIdSession sampleWorld).requests = [] ∧
    serverSuppliedAlong samplePlatform typedIdSession sampleWorld = [] :=
  ⟨rfl, rfl, rfl⟩

/-- C12, amended. In every state reached from a freshly loaded page by any sequence of events,
`AppState.conversationId` is empty, or a `conversation_id` the server supplied in an accepted
regular chat response, or a value supplied on the client side (the text of the settings field
at a save, the stored text at a load, the `conversationId` of an imported file). -/
theorem conversationId_provenance (P : Platform) (form : FormDefaults) (storage : LocalStorage)
    (actions : List PageEvent) :
    (run P actions (freshWorld form storage)).app.conversationId = JSValue.str [] ∨
    (run P actions (freshWorld form storage)).app.conversationId ∈
      serverSuppliedAlong P actions (freshWorld form storage) ∨
    (run P actions (freshWorld form storage)).app.conversationId ∈
      clientSuppliedAlong P actions (freshWorld form storage) := by
  rcases run_conversationId P actions (freshWorld form storage) with h | h | h | h
  · exact Or.inl h
  · exact Or.inl h
  · exact Or.inr (Or.inl h)
  · exact Or.inr (Or.inr h)

/-- C13. The pending stream is not persisted: `UI.createStreamingMessage`,
`UI.updateStreamingMessage` and the whole stream loop leave `AppState.messages` and the storage
as they were; what `UI.saveChatHistory` stores does not depend on the accumulator; and in
every state reached by a sequence of events (stream operations included) the stored history
is the one the session started with or the serialisation of a value `AppState.messages` held
after one of the events (or of the empty list). -/
theorem pending_stream_is_not_persisted (P : Platform) (clock : Clock) (chunk : JSString)
    (chunks : List (List Nat)) (decoder : TextDecoder) (buffer : JSString) (w : World)
    (actions : List PageEvent) :
    ((UI.createStreamingMessage clock w).app.messages = w.app.messages ∧
      (UI.createStreamingMessage clock w).storage = w.storage) ∧
    ((UI.updateStreamingMessage chunk w).app.messages = w.app.messages ∧
      (UI.updateStreamingMessage chunk w).storage = w.storage) ∧
    ((Chat.readLoop chunks decoder buffer w).world.app.messages = w.app.messages ∧
      (Chat.readLoop chunks decoder buffer w).world.storage = w.storage) ∧
    (∀ acc : Option StreamingMessage,
      (UI.saveChatHistory P { w with app := { w.app with currentStreamingMessage := acc } }).storage =
        w.storage.setItem CONFIG.STORAGE_KEYS.CHAT_HISTORY (P.stringify w.app.messages)) ∧
    ((run P actions w).storage.getItem CONFIG.STORAGE_KEYS.CHAT_HISTORY =
        w.storage.getItem CONFIG.STORAGE_KEYS.CHAT_HISTORY ∨
      ∃ m ∈ JSValue.arr [] :: historiesAlong P actions w,
        (run P actions w).storage.getItem CONFIG.STORAGE_KEYS.CHAT_HISTORY =
          some (P.stringify m)) := by
  obtain ⟨cur1, nodes1, h1⟩ := updateStreamingMessage_frame chunk w
  obtain ⟨cur2, nodes2, h2⟩ := readLoop_frame chunks decoder buffer w
  refine ⟨⟨rfl, rfl⟩, ?_, ?_, fun _ => rfl, run_history P actions w⟩
  · rw [h1]
    exact ⟨rfl, rfl⟩
  · rw [h2]
    exact ⟨rfl, rfl⟩

/-- C14. Regular reply commit: for an accepted response whose `response` is a string,
`Chat.sendRegularMessage` appends exactly one `ai` record with that content to the history (an
array); when the `conversation_id` of the response is present (truthy) and differs from the
current one it becomes `AppState.conversationId` and its text is stored under the
conversation id key; otherwise the conversation id and that key are unchanged. -/
theorem sendRegularMessage_commits_reply (P : Platform) (clock : Clock) (status : Nat)
    (statusText : JSString) (data newId : JSValue) (r : JSString)
    (message : JSString) (w : World) (items : List JSValue)
    (hm : w.app.messages = JSValue.arr items)
    (hr : data.getProp (utf16 "response") = .ok (JSValue.str r))
    (hid : data.getProp (utf16 "conversation_id") = .ok newId) :
    (Chat.sendRegularMessage P clock (.response true status statusText (.ok data))
        message w).world.app.messages =
      JSValue.arr (items ++ [aiRecord r clock.time clock.now]) ∧
    (newId.truthy = true → newId.strictEq w.app.conversationId = false →
      (Chat.sendRegularMessage P clock (.response true status statusText (.ok data))
          message w).world.app.conversationId = newId ∧
      ∀ text, newId.toJSString P = .ok text →
        (Chat.sendRegularMessage P clock (.response true status statusText (.ok data))
            message w).thrown = none ∧
        (Chat.sendRegularMessage P clock (.response true status statusText (.ok data))
            message w).world.storage.getItem CONFIG.STORAGE_KEYS.CONVERSATION_ID = some text) ∧
    ((newId.truthy = false ∨ newId.strictEq w.app.conversationId = true) →
      (Chat.sendRegularMessage P clock (.response true status statusText (.ok data))
          message w).thrown = none ∧
      (Chat.sendRegularMessage P clock (.response true status statusText (.ok data))
          message w).world.app.conversationId = w.app.conversationId ∧
      (Chat.sendRegularMessage P clock (.response true status statusText (.ok data))
          message w).world.storage.getItem CONFIG.STORAGE_KEYS.CONVERSATION_ID =
        w.storage.getItem CONFIG.STORAGE_KEYS.CONVERSATION_ID) := by
  obtain ⟨⟨serverUrl, conversationId, temperature, useStreaming, isConnected, messages, current,
    isTyping⟩, ui, storage, requests, nextNode⟩ := w
  simp only at hm
  subst hm
  have hnull : JSValue.null.truthy = false := rfl
  have hstr : ∀ x : JSString, JSValue.toJSString P (JSValue.str x) = .ok x := fun _ => rfl
  simp only [Chat.sendRegularMessage, hr, hid, Bool.not_true, Bool.false_eq_true, if_false,
    UI.addMessage, hstr, hnull, if_true, Outcome.andThen, Outcome.ok, UI.saveChatHistory,
    UI.showTypingIndicator, UI.hideTypingIndicator, Chat.logRequest]
  cases h1 : newId.truthy with
  | false =>
    simp only [Bool.false_and, Bool.false_eq_true, if_false]
    refine ⟨rfl, ?_, ?_⟩
    · intro hc; cases hc
    · intro _
      refine ⟨?_, ?_, getItem_setItem_ne _ _ _ _ (by decide)⟩ <;> first | rfl | trivial
  | true =>
    cases h2 : newId.strictEq conversationId with
    | true =>
      simp only [Bool.not_true, Bool.and_false, Bool.false_eq_true, if_false]
      refine ⟨rfl, ?_, ?_⟩
      · intro _ hc; cases hc
      · intro _
        refine ⟨?_, ?_, getItem_setItem_ne _ _ _ _ (by decide)⟩ <;> first | rfl | trivial
    | false =>
      simp only [Bool.not_false, Bool.and_self, if_true]
      cases ht : newId.toJSString P with
      | error e =>
        refine ⟨rfl, ?_, ?_⟩
        · intro _ _
          refine ⟨rfl, ?_⟩
          intro text hc
          cases hc
        · intro h
          rcases h with h | h <;> cases h
      | ok text =>
        refine ⟨rfl, ?_, ?_⟩
        · intro _ _
          refine ⟨rfl, ?_⟩
          intro text2 hc
          cases hc
          exact ⟨rfl, getItem_setItem_same _ _ _⟩
        · intro h
          rcases h with h | h <;> cases h


/-- Witness for C14: the reply `hi` with the conversation id `abc` on a page whose conversation
id was `old-id`. -/
theorem sendRegularMessage_commits_reply_witness :
    (Chat.sendRegularMessage samplePlatform sampleClock
        (.response true 200 (utf16 "OK") (.ok sampleReplyData)) (utf16 "q")
        usedWorld).world.app.messages =
      JSValue.arr [aiRecord (utf16 "old") (utf16 "09:00") 0,
        aiRecord (utf16 "hi") (utf16 "10:30") 4607182418800017408] ∧
    (Chat.sendRegularMessage samplePlatform sampleClock
        (.response true 200 (utf16 "OK") (.ok sampleReplyData)) (utf16 "q")
        usedWorld).world.app.conversationId = JSValue.str (utf16 "abc") ∧
    (Chat.sendRegularMessage samplePlatform sampleClock
        (.response true 200 (utf16 "OK") (.ok sampleReplyData)) (utf16 "q")
        usedWorld).world.storage.getItem CONFIG.STORAGE_KEYS.CONVERSATION_ID =
      some (utf16 "abc") :=
  have h := sendRegularMessage_commits_reply samplePlatform sampleClock 200 (utf16 "OK")
    sampleReplyData (JSValue.str (utf16 "abc")) (utf16 "hi") (utf16 "q") usedWorld
    [aiRecord (utf16 "old") (utf16 "09:00") 0] rfl rfl rfl
  ⟨h.1, (h.2.1 rfl rfl).1, ((h.2.1 rfl rfl).2 (utf16 "abc") rfl).2⟩

/-- C15. An unterminated final line is dropped: when a body is extended by bytes that contain
no line feed, however they are cut into chunks, `Chat.sendStreamingMessage` ends in the same
world and with the same thrown error as on the body without them. -/
theorem sendStreamingMessage_drops_unterminated_tail (P : Platform) (startClock endClock : Clock)
    (ok : Bool) (status : Nat) (statusText : JSString) (chunks extended : List (List Nat))
    (tail : List Nat) (message : JSString) (w : World)
    (hext : extended.flatten = chunks.flatten ++ tail) (htail : 10 ∉ tail) :
    Chat.sendStreamingMessage P startClock endClock (.response ok status statusText extended) message w =
      Chat.sendStreamingMessage P startClock endClock (.response ok status statusText chunks) message w := by
  simp only [Chat.sendStreamingMessage, readLoop_fresh,
    responseText_unterminated chunks extended tail hext htail]


/-- Witness for C15: the sample body followed by an unterminated `data: [ERROR] boom` throws
nothing and commits `Hello!`. -/
theorem sendStreamingMessage_drops_unterminated_tail_witness :
    (Chat.sendStreamingMessage samplePlatform sampleClock sampleClock
        (.response true 200 (utf16 "OK") (sampleChunks ++ [unterminatedErrorTail]))
        (utf16 "hi") sampleWorld).thrown = none ∧
    (Chat.sendStreamingMessage samplePlatform sampleClock sampleClock
        (.response true 200 (utf16 "OK") (sampleChunks ++ [unterminatedErrorTail]))
        (utf16 "hi") sampleWorld).world.app.messages =
      JSValue.arr [aiRecord (utf16 "Hello!") (utf16 "10:30") 4607182418800017408] := by
  rw [sendStreamingMessage_drops_unterminated_tail samplePlatform sampleClock sampleClock true 200
    (utf16 "OK") sampleChunks (sampleChunks ++ [unterminatedErrorTail]) unterminatedErrorTail
    (utf16 "hi") sampleWorld (by simp) (by decide)]
  exact ⟨rfl, rfl⟩
